import Mathlib

/-!
Verification development for the PowerLang lexer / interpreter core.

The definitions below are a shallow embedding of the Python sources:
  * `src/interpreter/values.py`      (runtime value model, conversions)
  * `src/errors/errors.py`           (error class hierarchy)
  * `src/interpreter/environment.py` (scope chains)
  * `src/interpreter/interpreter.py` (the tree-walking evaluator fragment
                                      relevant to the claims)
  * `src/lexer/lexer.py`, `src/lexer/scanner.py`, `src/lexer/operators.py`,
    `src/lexer/keywords.py`          (scanner-based lexer)
  * `src/lexer.py`                   (legacy lexer, `read_ps_operator`)

Modelling conventions:
  * Python `int` is `Int`; Python `float` is modelled as `Rat` (exact
    arithmetic; IEEE rounding is not modelled — no theorem below depends on
    float rounding, only on exact zero tests which agree with IEEE).
  * Python-level (host) exceptions that are not PowerLang errors
    (`AttributeError`, `TypeError` raised by the Python runtime itself,
    `ZeroDivisionError` from Python `%`) are modelled by the `HostEvent`
    channel; operations whose exact Python result is not modelled
    (float formatting, float exponentiation, ordering of containers)
    return the `HostEvent.unmodelled` marker, which no theorem relies on.
  * Mutable scope chains are modelled by explicit state passing: a chain is a
    `List Scope`, innermost scope first; in-place mutation of an ancestor
    becomes rebuilding the list with one scope replaced.
-/

set_option maxRecDepth 4000

namespace PowerLang

/-! ## Python host values (targets of `value_to_python` in values.py) -/

/-- A Python dict key as used by `HashValue` (restricted to str/int/float/bool
by `python_to_value` and `_evaluate`of hash literals). -/
inductive PKey where
  | s (v : String)
  | i (v : Int)
  | f (v : Rat)
  | b (v : Bool)
  deriving Repr, DecidableEq, Inhabited

/-- Python values produced by `value_to_python`. `other` stands for the
objects that `value_to_python` returns unchanged (functions, classes, ...). -/
inductive PyVal where
  | none
  | bool (b : Bool)
  | int (n : Int)
  | float (q : Rat)
  | str (s : String)
  | list (xs : List PyVal)
  | dict (xs : List (PKey × PyVal))
  | other
  deriving Repr, Inhabited

/-- Python truthiness of a host value (`if rp:` etc.). -/
def pyTruthy : PyVal → Bool
  | .none => false
  | .bool b => b
  | .int n => n != 0
  | .float q => q != 0
  | .str s => s != ""
  | .list xs => !xs.isEmpty
  | .dict xs => !xs.isEmpty
  | .other => true

/-- Numeric view of a Python value: Python treats `bool` as a number
(`True == 1`), and compares `int` and `float` numerically. -/
def pyNum : PyVal → Option Rat
  | .bool b => some (if b then 1 else 0)
  | .int n => some (n : Rat)
  | .float q => some q
  | _ => Option.none

/-- Numeric view of a dict key (Python key equality crosses bool/int/float). -/
def pkeyNum : PKey → Option Rat
  | .b b => some (if b then 1 else 0)
  | .i n => some (n : Rat)
  | .f q => some q
  | .s _ => Option.none

/-- Python `==` on dict keys. -/
def pkeyEq (a b : PKey) : Bool :=
  match a, b with
  | .s x, .s y => x == y
  | a, b =>
    match pkeyNum a, pkeyNum b with
    | some x, some y => x == y
    | _, _ => false

mutual
/-- Python `==` on host values. -/
def pyEq : PyVal → PyVal → Bool
  | .str a, .str b => a == b
  | .list a, .list b => pyEqList a b
  | .dict a, .dict b => a.length == b.length && pyEqDictAll a b
  | .none, .none => true
  | a, b =>
    match pyNum a, pyNum b with
    | some x, some y => x == y
    | _, _ => false

/-- Python `==` on lists, elementwise. -/
def pyEqList : List PyVal → List PyVal → Bool
  | [], [] => true
  | a :: as, b :: bs => pyEq a b && pyEqList as bs
  | _, _ => false

/-- Every entry of the first dict is present (by key equality) in the second
with an equal value. Together with equal lengths this is Python dict `==`. -/
def pyEqDictAll : List (PKey × PyVal) → List (PKey × PyVal) → Bool
  | [], _ => true
  | (k, v) :: rest, ys =>
    (match ys.find? (fun p => pkeyEq p.1 k) with
     | some p => pyEq v p.2
     | Option.none => false)
    && pyEqDictAll rest ys
end

/-- Python `str()` of a host value as far as the claims need it; float
formatting is not modelled bit-exactly (no theorem depends on it). -/
def pyStr : PyVal → String
  | .none => "None"
  | .bool b => if b then "True" else "False"
  | .int n => toString n
  | .float q => toString q
  | .str s => s
  | .list _ => "<list>"
  | .dict _ => "<dict>"
  | .other => "<object>"

/-- Python `x or 0` (used as `(lp or 0)` in `_eval_binary`). -/
def pyOrZero (v : PyVal) : PyVal :=
  if pyTruthy v then v else .int 0

/-- Python `x or 1` (used as `(rp or 1)` in `_eval_binary`). -/
def pyOrOne (v : PyVal) : PyVal :=
  if pyTruthy v then v else .int 1

/-- Python `int(x)` for the values that can reach it (float truncates toward
zero); `Option.none` models the host `TypeError`/`ValueError` paths. -/
def pyToInt : PyVal → Option Int
  | .bool b => some (if b then 1 else 0)
  | .int n => some n
  | .float q => some (if 0 ≤ q then q.floor else q.ceil)
  | _ => Option.none

/-! ## Host-level (Python) exception channel -/

/-- Python exceptions raised by the host language itself (never caught by
PowerLang try/catch, which only catches the PowerLang `RuntimeError` class). -/
inductive HostEvent where
  /-- Python `TypeError` from an operator on unsupported operand types. -/
  | typeMismatch
  /-- Python `ZeroDivisionError` (reachable through `%` with a truthy divisor
  that truncates to integer zero). -/
  | zeroDiv
  /-- Python `AttributeError`: a referenced attribute does not exist
  (`TokenType.STAR_STAR` in `_eval_binary`, `Scanner.is_escaped`). -/
  | attributeMissing
  /-- Behavior the embedding deliberately does not model (float formatting,
  float exponentiation, container ordering). No theorem relies on it. -/
  | unmodelled
  deriving Repr, DecidableEq

/-- Python `<` on host values (numeric and string cases; container ordering is
not needed by any claim and is marked unmodelled). -/
def pyLt (a b : PyVal) : Except HostEvent Bool :=
  match a, b with
  | .str x, .str y => .ok (decide (x < y))
  | .list _, .list _ => .error .unmodelled
  | a, b =>
    match pyNum a, pyNum b with
    | some x, some y => .ok (decide (x < y))
    | _, _ => .error .typeMismatch

/-- Python `<=` on host values. -/
def pyLe (a b : PyVal) : Except HostEvent Bool :=
  match a, b with
  | .str x, .str y => .ok (decide (x ≤ y))
  | .list _, .list _ => .error .unmodelled
  | a, b =>
    match pyNum a, pyNum b with
    | some x, some y => .ok (decide (x ≤ y))
    | _, _ => .error .typeMismatch

/-- Python `+` on host values (after the `or 0` defaulting). -/
def pyAdd (a b : PyVal) : Except HostEvent PyVal :=
  match a, b with
  | .int x, .int y => .ok (.int (x + y))
  | .bool x, .bool y => .ok (.int ((if x then 1 else 0) + (if y then 1 else 0)))
  | .bool x, .int y => .ok (.int ((if x then 1 else 0) + y))
  | .int x, .bool y => .ok (.int (x + (if y then 1 else 0)))
  | .str x, .str y => .ok (.str (x ++ y))
  | .list x, .list y => .ok (.list (x ++ y))
  | a, b =>
    match pyNum a, pyNum b with
    | some x, some y => .ok (.float (x + y))
    | _, _ => .error .typeMismatch

/-- Python `-` on host values. -/
def pySub (a b : PyVal) : Except HostEvent PyVal :=
  match a, b with
  | .int x, .int y => .ok (.int (x - y))
  | .bool x, .bool y => .ok (.int ((if x then 1 else 0) - (if y then 1 else 0)))
  | .bool x, .int y => .ok (.int ((if x then 1 else 0) - y))
  | .int x, .bool y => .ok (.int (x - (if y then 1 else 0)))
  | a, b =>
    match pyNum a, pyNum b with
    | some x, some y => .ok (.float (x - y))
    | _, _ => .error .typeMismatch

/-- Python `*` on host values (the numeric cases; sequence repetition is not
needed by any claim). -/
def pyMul (a b : PyVal) : Except HostEvent PyVal :=
  match a, b with
  | .int x, .int y => .ok (.int (x * y))
  | .bool x, .bool y => .ok (.int ((if x then 1 else 0) * (if y then 1 else 0)))
  | .bool x, .int y => .ok (.int ((if x then 1 else 0) * y))
  | .int x, .bool y => .ok (.int (x * (if y then 1 else 0)))
  | .str _, _ => .error .unmodelled
  | _, .str _ => .error .unmodelled
  | .list _, _ => .error .unmodelled
  | _, .list _ => .error .unmodelled
  | a, b =>
    match pyNum a, pyNum b with
    | some x, some y => .ok (.float (x * y))
    | _, _ => .error .typeMismatch

/-- Python `/` (true division, always produces a float). The callers in
`_eval_binary`/`_eval_assignment` always guard the divisor (zero check or
`or 1` defaulting), so the division-by-zero case maps to `zeroDiv`. -/
def pyDiv (a b : PyVal) : Except HostEvent PyVal :=
  match pyNum a, pyNum b with
  | some x, some y => if y == 0 then .error .zeroDiv else .ok (.float (x / y))
  | _, _ => .error .typeMismatch

/-- Python `**` on host values: integer exponentiation is modelled exactly;
float exponents are unmodelled (no claim touches them). -/
def pyPow (a b : PyVal) : Except HostEvent PyVal :=
  match a, b with
  | .float _, _ => .error .unmodelled
  | _, .float _ => .error .unmodelled
  | a, b =>
    match pyToInt a, pyToInt b with
    | some x, some y =>
      if 0 ≤ y then .ok (.int (x ^ y.toNat))
      else if x == 0 then .error .zeroDiv
      else .ok (.float ((1 : Rat) / ((x : Rat) ^ (-y).toNat)))
    | _, _ => .error .typeMismatch

/-! ## Runtime values (values.py) -/

/-- The runtime value variants reachable in the embedded evaluator fragment
(functions/classes/instances are not constructed by any claim). -/
inductive Value where
  | null
  | bool (value : Bool)
  | int (value : Int)
  | float (value : Rat)
  | str (value : String)
  | array (elements : List Value)
  | hash (pairs : List (PKey × Value))
  deriving Repr, Inhabited

/-- `RuntimeValue.is_truthy` (values.py): the base class returns `True`, so
arrays and hashes are always truthy, even when empty. -/
def Value.isTruthy : Value → Bool
  | .null => false
  | .bool b => b
  | .int n => n != 0
  | .float q => q != 0
  | .str s => s != ""
  | .array _ => true
  | .hash _ => true

mutual
/-- `value_to_python` (values.py). -/
def valueToPython : Value → PyVal
  | .null => .none
  | .bool b => .bool b
  | .int n => .int n
  | .float q => .float q
  | .str s => .str s
  | .array es => .list (valueListToPython es)
  | .hash ps => .dict (hashPairsToPython ps)

def valueListToPython : List Value → List PyVal
  | [] => []
  | v :: vs => valueToPython v :: valueListToPython vs

def hashPairsToPython : List (PKey × Value) → List (PKey × PyVal)
  | [] => []
  | (k, v) :: ps => (k, valueToPython v) :: hashPairsToPython ps
end

/-- Key coercion used by `python_to_value` and hash literals/index access:
`key if isinstance(key, (str, int, float, bool)) else str(key)`. -/
def toPKey : PyVal → PKey
  | .str s => .s s
  | .int n => .i n
  | .float q => .f q
  | .bool b => .b b
  | v => .s (pyStr v)

mutual
/-- `python_to_value` (values.py). The `bool` case is tested before `int`,
matching the `isinstance` order in the source. -/
def pythonToValue : PyVal → Value
  | .none => .null
  | .bool b => .bool b
  | .int n => .int n
  | .float q => .float q
  | .str s => .str s
  | .list xs => .array (pythonListToValue xs)
  | .dict xs => .hash (pythonDictToValue xs)
  | .other => .null

def pythonListToValue : List PyVal → List Value
  | [] => []
  | x :: xs => pythonToValue x :: pythonListToValue xs

def pythonDictToValue : List (PKey × PyVal) → List (PKey × Value)
  | [] => []
  | (k, v) :: xs => (k, pythonToValue v) :: pythonDictToValue xs
end

/-! ## Error classes (errors.py) -/

/-- The concrete error classes of errors.py, as kinds. -/
inductive ErrKind where
  | powerLangErr
  | lexerErr
  | syntaxErr
  | parseErr
  | semanticErr
  | typeErr
  | nameErr
  | argumentErr
  | runtimeErr
  | divisionByZeroErr
  | indexErr
  | keyErr
  | importErr
  | timeoutErr
  deriving Repr, DecidableEq

/-- `isinstance(e, RuntimeError)` for the hierarchy of errors.py:
`DivisionByZeroError`, `IndexError`, `KeyError`, `ImportError` and
`TimeoutError` subclass `RuntimeError`; `NameError` and the other kinds
subclass `PowerLangError` directly. -/
def ErrKind.isRuntimeSubclass : ErrKind → Bool
  | .runtimeErr | .divisionByZeroErr | .indexErr | .keyErr
  | .importErr | .timeoutErr => true
  | _ => false

/-- Python `__class__.__name__` of each error kind. -/
def ErrKind.className : ErrKind → String
  | .powerLangErr => "PowerLangError"
  | .lexerErr => "LexerError"
  | .syntaxErr => "SyntaxError"
  | .parseErr => "ParseError"
  | .semanticErr => "SemanticError"
  | .typeErr => "TypeError"
  | .nameErr => "NameError"
  | .argumentErr => "ArgumentError"
  | .runtimeErr => "RuntimeError"
  | .divisionByZeroErr => "DivisionByZeroError"
  | .indexErr => "IndexError"
  | .keyErr => "KeyError"
  | .importErr => "ImportError"
  | .timeoutErr => "TimeoutError"

/-- A raised PowerLang error. The evaluator always constructs errors with the
default `ErrorContext` (filename `<input>`, line 1, column 1), so the context
is a constant and only kind and message vary. -/
structure PplError where
  kind : ErrKind
  message : String
  deriving Repr, DecidableEq

/-- Python `str.lower()` (ASCII), written over the character list so that it
reduces definitionally in the kernel. -/
def strLower (s : String) : String := String.mk (s.data.map Char.toLower)

/-- Python `str.startswith(p)`, list-based. -/
def strStartsWith (s p : String) : Bool := p.data.isPrefixOf s.data

/-- Python slicing `s[n:]`, list-based. -/
def strDrop (s : String) (n : Nat) : String := String.mk (s.data.drop n)

/-- Python `str.strip()` (ASCII whitespace), list-based. -/
def strTrim (s : String) : String :=
  String.mk (((s.data.dropWhile Char.isWhitespace).reverse.dropWhile
    Char.isWhitespace).reverse)

/-- Python `c in s`, list-based. -/
def strContains (s : String) (c : Char) : Bool := s.data.contains c

/-- A single-quote character, written without an apostrophe token. -/
def sq : String := String.mk [Char.ofNat 39]

/-- `PowerLangError.__str__`: class name, message and the (default) location
suffix; no inner exception is ever attached by the evaluator. -/
def errStr (e : PplError) : String :=
  e.kind.className ++ ": " ++ e.message ++ " at <input>:1:1"

/-- The combined error channel of the evaluator: PowerLang errors plus host
(Python-level) exceptions. -/
inductive RunErr where
  | ppl (e : PplError)
  | host (h : HostEvent)
  deriving Repr, DecidableEq

/-! ## Environments (environment.py) -/

/-- `_normalize_name`: strip surrounding whitespace, a leading `$`, and
lowercase. -/
def normalizeName (name : String) : String :=
  let s := strTrim name
  let s := if strStartsWith s "$" then strDrop s 1 else s
  strLower s

/-- One scope: `_values` (an insertion-ordered dict) and `_consts` (the keys
stored with a truthy flag). -/
structure Scope where
  values : List (String × Value)
  consts : List String
  deriving Repr, Inhabited

/-- The empty scope (a freshly constructed `Environment`). -/
def Scope.empty : Scope := { values := [], consts := [] }

/-- `key in env._values` / `env._values[key]`. -/
def Scope.lookup (sc : Scope) (key : String) : Option Value :=
  sc.values.lookup key

/-- Python dict assignment `d[key] = v`: update in place if present, append
otherwise. -/
def setAssoc (key : String) (v : Value) : List (String × Value) → List (String × Value)
  | [] => [(key, v)]
  | (k, w) :: rest => if k == key then (k, v) :: rest else (k, w) :: setAssoc key v rest

/-- `env._values[key] = value`. -/
def Scope.set (sc : Scope) (key : String) (v : Value) : Scope :=
  { sc with values := setAssoc key v sc.values }

/-- `env._consts[key] = True`. -/
def Scope.markConst (sc : Scope) (key : String) : Scope :=
  { sc with consts := if sc.consts.contains key then sc.consts else sc.consts ++ [key] }

/-- A scope chain, innermost scope first (`self`, then `self._parent`, ...).
A real Python `Environment` is always a nonempty chain. -/
abbrev Env := List Scope

/-- The ancestor walk of `Environment.define`: find the innermost scope that
already binds `key` and update it there; `Option.none` means no scope binds
`key`. `name` is the unnormalized name used in the error message. -/
def defineWalk (name key : String) (v : Value) (constant : Bool) :
    Env → Option (Except PplError Env)
  | [] => Option.none
  | sc :: rest =>
    if (sc.lookup key).isSome then
      if sc.consts.contains key then
        if constant then
          -- already defined as const; nothing to do
          some (.ok (sc :: rest))
        else
          -- trying to overwrite a constant
          some (.error { kind := .runtimeErr,
                         message := "Cannot assign to constant " ++ sq ++ name ++ sq })
      else
        -- update the existing binding in the ancestor scope
        some (.ok ((if constant then (sc.set key v).markConst key else sc.set key v) :: rest))
    else
      match defineWalk name key v constant rest with
      | Option.none => Option.none
      | some (.error e) => some (.error e)
      | some (.ok rest2) => some (.ok (sc :: rest2))

/-- `Environment.define`. -/
def envDefine (env : Env) (name : String) (v : Value) (constant : Bool) :
    Except PplError Env :=
  let key := normalizeName name
  match defineWalk name key v constant env with
  | some r => r
  | Option.none =>
    -- Not found in any ancestor: define in current scope
    match env with
    | [] => .ok []  -- unreachable: a Python Environment chain is nonempty
    | sc :: rest =>
      .ok ((if constant then (sc.set key v).markConst key else sc.set key v) :: rest)

/-- `Environment.assign`: update the innermost binding, raising `NameError`
when no scope binds the name. -/
def envAssign (env : Env) (name : String) (v : Value) : Except PplError Env :=
  match env with
  | [] => .error { kind := .nameErr,
                   message := "Undefined variable " ++ sq ++ name ++ sq }
  | sc :: rest =>
    let key := normalizeName name
    if (sc.lookup key).isSome then
      if sc.consts.contains key then
        .error { kind := .runtimeErr,
                 message := "Cannot assign to constant " ++ sq ++ name ++ sq }
      else .ok (sc.set key v :: rest)
    else
      match envAssign rest name v with
      | .error e => .error e
      | .ok rest2 => .ok (sc :: rest2)

/-- `Environment.get`. -/
def envGet (env : Env) (name : String) : Except PplError Value :=
  match env with
  | [] => .error { kind := .nameErr,
                   message := "Undefined variable " ++ sq ++ name ++ sq }
  | sc :: rest =>
    match sc.lookup (normalizeName name) with
    | some v => .ok v
    | Option.none => envGet rest name

/-- `Environment.get_optional`. -/
def envGetOptional (env : Env) (name : String) : Option Value :=
  match env with
  | [] => Option.none
  | sc :: rest =>
    match sc.lookup (normalizeName name) with
    | some v => some v
    | Option.none => envGetOptional rest name

/-! ## Token types (lexer/tokens.py)

The `TokenType` enum.  Note that it has no `STAR_STAR` member: the reference
to `TokenType.STAR_STAR` in `_eval_binary` raises a host `AttributeError`
whenever it is evaluated. -/

inductive TokType where
  | IDENTIFIER | VARIABLE | STRING | INTEGER | DOUBLE | BOOL
  | DOLLAR
  | CLASS | FUNCTION | RETURN | IF | ELSE | ELSEIF | FOR | WHILE | DO
  | FOREACH | IN | SWITCH | CASE | DEFAULT | BREAK | CONTINUE | NAMESPACE
  | USING | EVENT | CONST | NEW | THIS | NULL | TRUE | FALSE | TRY | CATCH
  | FINALLY | THROW | IMPORT | EXPORT | FROM | AS | IS | INSTANCEOF | TYPEOF
  | ASYNC | AWAIT
  | INT_TYPE | DOUBLE_TYPE | STRING_TYPE | BOOL_TYPE | ARRAY_TYPE | VOID_TYPE
  | OBJECT_TYPE | DATETIME_TYPE | HASHTABLE_TYPE | LIST_TYPE | DICTIONARY_TYPE
  | PLUS | MINUS | STAR | SLASH | PERCENT | CARET | AMPERSAND | PIPE | TILDE
  | EQ | NE | GT | LT | GE | LE | LIKE | MATCH | CONTAINS | NOTCONTAINS
  | IN_OP | NOTIN | IS_OP | ISNOT | REPLACE
  | AND | OR | NOT
  | EQUAL | PLUS_EQUAL | MINUS_EQUAL | STAR_EQUAL | SLASH_EQUAL
  | PERCENT_EQUAL | CARET_EQUAL | AMPERSAND_EQUAL | PIPE_EQUAL
  | PLUS_PLUS | MINUS_MINUS
  | AMPERSAND_AMPERSAND | PIPE_PIPE | CARET_CARET
  | LESS_LESS | GREATER_GREATER
  | QUESTION | QUESTION_QUESTION | QUESTION_DOT
  | LBRACKET | RBRACKET | LPAREN | RPAREN | LBRACE | RBRACE
  | DOT | COMMA | COLON | SEMICOLON | AT | HASH
  | COMMENT | BLOCK_COMMENT_START | BLOCK_COMMENT_END
  | DOUBLE_COLON | ARROW | ELLIPSIS | DOLLAR_LBRACE
  | EOF
  deriving Repr, DecidableEq, Inhabited

/-! ## The embedded AST fragment (parser/ast.py node shapes as used by
interpreter.py and test_interpreter.py)

The fragment contains exactly the constructs the claims exercise: literals,
variable references, binary operations, assignments, expression statements,
blocks, variable declarations, try/catch/finally, and throw.  Constructs
whose semantics require a mutable object heap (member/index assignment
targets, function calls, loops) are treated separately at the value or
binding level. -/

mutual
inductive Expr where
  /-- `Literal`; carries the decoded Python literal value. -/
  | Literal (value : PyVal)
  /-- `Variable`; carries the name token lexeme (`_var_name` strips the `$`
  and lowercases at evaluation time). -/
  | Variable (lexeme : String)
  /-- `BinaryOperation`; carries the operator token type. -/
  | BinaryOperation (operator : TokType) (left right : Expr)
  /-- `Assignment`; carries the operator token type. -/
  | Assignment (target : Expr) (operator : TokType) (value : Expr)

inductive Stmt where
  | ExpressionStatement (expression : Expr)
  /-- `Block`; its statement list. -/
  | Block (statements : List Stmt)
  /-- `VariableDeclaration`; `name` is the raw declared name (with or
  without `$`). -/
  | VariableDeclaration (name : String) (initializer : Option Expr)
      (isConstant : Bool)
  /-- `TryCatchStatement`; the try block statements, catch clauses, and the
  optional finally block statements. -/
  | TryCatchStatement (tryBlock : List Stmt) (catchClauses : List CatchClause)
      (finallyBlock : Option (List Stmt))
  | ThrowStatement (expression : Expr)

inductive CatchClause where
  /-- `exceptionVariable` is the catch variable token lexeme, if declared. -/
  | mk (exceptionVariable : Option String) (block : List Stmt)
end

/-- Catch variable lexeme of a clause. -/
def CatchClause.exceptionVariable : CatchClause → Option String
  | .mk v _ => v

/-- Body of a catch clause. -/
def CatchClause.block : CatchClause → List Stmt
  | .mk _ b => b

/-! ## The evaluator fragment (interpreter.py) -/

/-- `_var_name`: the variable lexeme with a leading `$` stripped, lowercased. -/
def varName (lexeme : String) : String :=
  let n := if strStartsWith lexeme "$" then strDrop lexeme 1 else lexeme
  strLower n

/-- `_literal_to_value`. -/
def literalToValue : PyVal → Value
  | .none => .null
  | .bool b => .bool b
  | .int n => .int n
  | .float q => .float q
  | .str s => .str s
  | v => pythonToValue v

/-- Lift a host-arithmetic result into the evaluator, applying
`python_to_value` as `_eval_binary` does. -/
def hostMap : Except HostEvent PyVal → Except RunErr Value
  | .ok p => .ok (pythonToValue p)
  | .error h => .error (.host h)

/-- `IntValue(int(lp or 0) % int(rp or 1))` (the `%` result expression,
shared by `_eval_binary` and `_eval_assignment`).  Python `%` on ints is
floored modulo (`Int.fmod`). -/
def pyModInt (lp rp : PyVal) : Except RunErr Value :=
  match pyToInt (pyOrZero lp), pyToInt (pyOrOne rp) with
  | some a, some b =>
    if b == 0 then .error (.host .zeroDiv) else .ok (.int (Int.fmod a b))
  | _, _ => .error (.host .typeMismatch)

/-- `isinstance(v, StringValue)`. -/
def Value.isStr : Value → Bool
  | .str _ => true
  | _ => false

/-- `isinstance(right, (IntValue, FloatValue)) and right.value == 0`
(the second half of the `/` zero test). -/
def Value.isZeroNumber : Value → Bool
  | .int n => n == 0
  | .float q => q == 0
  | _ => false

/-- `int(key) if isinstance(key, (int, float)) else 0` — the index-key
coercion of `_eval_index_access`/`_assign_target`.  Python `bool` is a
subclass of `int`, so booleans coerce to 0/1. -/
def keyToIndex : PyVal → Int
  | .int n => n
  | .bool b => if b then 1 else 0
  | .float q => if 0 ≤ q then q.floor else q.ceil
  | _ => 0

/-- Python `repr()` of a dict key (for the `KeyError` message). -/
def pkeyRepr : PKey → String
  | .s s => sq ++ s ++ sq
  | .i n => toString n
  | .f q => toString q
  | .b b => if b then "True" else "False"

/-- Lines 400-443 of interpreter.py: the operator dispatch of `_eval_binary`
on the two already-evaluated operands.  The final fall-through of the source
(line 440) compares against the nonexistent `TokenType.STAR_STAR` member and
therefore raises a host `AttributeError` for every operator not handled
above it. -/
def evalBinaryOp (op : TokType) (left right : Value) : Except RunErr Value :=
  let lp := valueToPython left
  let rp := valueToPython right
  match op with
  | .EQ => .ok (.bool (pyEq lp rp))
  | .NE => .ok (.bool (!pyEq lp rp))
  | .GT =>
    match pyLt rp lp with
    | .ok b => .ok (.bool b)
    | .error h => .error (.host h)
  | .LT =>
    match pyLt lp rp with
    | .ok b => .ok (.bool b)
    | .error h => .error (.host h)
  | .GE =>
    match pyLe rp lp with
    | .ok b => .ok (.bool b)
    | .error h => .error (.host h)
  | .LE =>
    match pyLe lp rp with
    | .ok b => .ok (.bool b)
    | .error h => .error (.host h)
  | .AND => .ok (.bool (left.isTruthy && right.isTruthy))
  | .OR => .ok (.bool (left.isTruthy || right.isTruthy))
  | .PLUS =>
    if left.isStr || right.isStr then .ok (.str (pyStr lp ++ pyStr rp))
    else
      match left with
      | .array es =>
        match right with
        | .array rs => .ok (.array (es ++ rs))
        | _ => .ok (.array (es ++ [right]))
      | _ => hostMap (pyAdd (pyOrZero lp) (pyOrZero rp))
  | .MINUS => hostMap (pySub (pyOrZero lp) (pyOrZero rp))
  | .STAR => hostMap (pyMul (pyOrZero lp) (pyOrZero rp))
  | .SLASH =>
    if pyEq rp (.int 0) || right.isZeroNumber then
      .error (.ppl { kind := .runtimeErr, message := "Division by zero" })
    else hostMap (pyDiv (pyOrZero lp) (pyOrOne rp))
  | .PERCENT =>
    if pyEq rp (.int 0) then
      .error (.ppl { kind := .runtimeErr, message := "Division by zero" })
    else pyModInt lp rp
  | .CARET => hostMap (pyPow (pyOrZero lp) (pyOrOne rp))
  | _ => .error (.host .attributeMissing)

/-- `_eval_index_access` on the two already-evaluated values
(lines 600-623).  For arrays and strings the source checks
`0 <= i < len(...)` after the negative-index wrap; here the bound check and
the element fetch are fused into `List.get?` after the sign test. -/
def evalIndexAccessV (obj idx : Value) : Except RunErr Value :=
  let key := valueToPython idx
  match obj with
  | .array elements =>
    let i0 := keyToIndex key
    let i := if i0 < 0 then i0 + elements.length else i0
    match (if 0 ≤ i then elements.get? i.toNat else Option.none) with
    | some v => .ok v
    | Option.none => .error (.ppl { kind := .indexErr, message := "Index out of range" })
  | .hash pairs =>
    let k := toPKey key
    match pairs.find? (fun p => pkeyEq p.1 k) with
    | some p => .ok p.2
    | Option.none =>
      .error (.ppl { kind := .keyErr, message := "Key not found: " ++ pkeyRepr k })
  | .str s =>
    let i0 := keyToIndex key
    let i := if i0 < 0 then i0 + s.length else i0
    match (if 0 ≤ i then s.data.get? i.toNat else Option.none) with
    | some c => .ok (.str (String.mk [c]))
    | Option.none => .error (.ppl { kind := .indexErr, message := "Index out of range" })
  | _ =>
    .error (.ppl { kind := .runtimeErr,
                   message := "Index access only on array, hash, or string" })

/-- `_assign_target` for the embedded target forms (lines 469-476).  For a
`Variable` target: define when the name is nowhere bound, assign otherwise.
Targets that match none of the `isinstance` branches fall through with no
effect in the source, hence the identity default. -/
def assignTarget (target : Expr) (v : Value) (env : Env) : Except RunErr Env :=
  match target with
  | .Variable lexeme =>
    let name := varName lexeme
    if (envGetOptional env name).isNone then
      match envDefine env name v false with
      | .ok env2 => .ok env2
      | .error e => .error (.ppl e)
    else
      match envAssign env name v with
      | .ok env2 => .ok env2
      | .error e => .error (.ppl e)
  | _ => .ok env

mutual
/-- `_evaluate` on the embedded fragment.  `fuel` bounds the recursion depth
(the Python evaluator recurses on the heap); `Option.none` means the fuel ran
out and never corresponds to a Python behavior. -/
def evalE : Nat → Expr → Env → Option (Env × Except RunErr Value)
  | 0, _, _ => Option.none
  | fuel + 1, e, env =>
    match e with
    | .Literal v => some (env, .ok (literalToValue v))
    | .Variable lexeme =>
      match envGet env (varName lexeme) with
      | .ok v => some (env, .ok v)
      | .error err => some (env, .error (.ppl err))
    | .BinaryOperation op l r =>
      match evalE fuel l env with
      | Option.none => Option.none
      | some (env1, .error err) => some (env1, .error err)
      | some (env1, .ok lv) =>
        match evalE fuel r env1 with
        | Option.none => Option.none
        | some (env2, .error err) => some (env2, .error err)
        | some (env2, .ok rv) => some (env2, evalBinaryOp op lv rv)
    | .Assignment target op value => evalAssignment fuel target op value env

/-- `_eval_assignment` (lines 498-518): evaluate the right-hand side, then
for compound operators evaluate the target and combine, then store through
`_assign_target` and return the stored value. -/
def evalAssignment (fuel : Nat) (target : Expr) (op : TokType) (value : Expr)
    (env : Env) : Option (Env × Except RunErr Value) :=
  match fuel with
  | 0 => Option.none
  | fuel + 1 =>
    match evalE fuel value env with
    | Option.none => Option.none
    | some (env1, .error err) => some (env1, .error err)
    | some (env1, .ok val0) =>
      if op == .EQUAL then
        match assignTarget target val0 env1 with
        | .ok env2 => some (env2, .ok val0)
        | .error err => some (env1, .error err)
      else
        match evalE fuel target env1 with
        | Option.none => Option.none
        | some (env2, .error err) => some (env2, .error err)
        | some (env2, .ok targetVal) =>
          let lp := valueToPython targetVal
          let rp := valueToPython val0
          let combined : Except RunErr Value :=
            match op with
            | .PLUS_EQUAL => hostMap (pyAdd (pyOrZero lp) (pyOrZero rp))
            | .MINUS_EQUAL => hostMap (pySub (pyOrZero lp) (pyOrZero rp))
            | .STAR_EQUAL => hostMap (pyMul (pyOrZero lp) (pyOrZero rp))
            | .SLASH_EQUAL =>
              if pyTruthy rp then hostMap (pyDiv (pyOrZero lp) (pyOrOne rp))
              else .ok .null
            | .PERCENT_EQUAL => pyModInt lp rp
            | _ => .ok targetVal
          match combined with
          | .error err => some (env2, .error err)
          | .ok val1 =>
            match assignTarget target val1 env2 with
            | .ok env3 => some (env3, .ok val1)
            | .error err => some (env2, .error err)

/-- `_execute` on the embedded fragment. -/
def execS : Nat → Stmt → Env → Option (Env × Except RunErr Value)
  | 0, _, _ => Option.none
  | fuel + 1, s, env =>
    match s with
    | .ExpressionStatement e => evalE fuel e env
    | .Block stmts => execBlock fuel stmts env
    | .VariableDeclaration name init isConst =>
      -- `_execute_variable_decl`: normalize the declared name, evaluate the
      -- initializer (or NULL), then `define`.
      let key := if strStartsWith name "$" then strLower (strDrop name 1)
                 else strLower name
      match (match init with
             | some e => evalE fuel e env
             | Option.none => some (env, .ok Value.null)) with
      | Option.none => Option.none
      | some (env1, .error err) => some (env1, .error err)
      | some (env1, .ok v) =>
        match envDefine env1 key v isConst with
        | .ok env2 => some (env2, .ok v)
        | .error e => some (env1, .error (.ppl e))
    | .TryCatchStatement t cs fin => execTryCatch fuel t cs fin env
    | .ThrowStatement e =>
      match evalE fuel e env with
      | Option.none => Option.none
      | some (env1, .error err) => some (env1, .error err)
      | some (env1, .ok v) =>
        some (env1, .error (.ppl { kind := .runtimeErr,
                                   message := pyStr (valueToPython v) }))

/-- `_execute_block`: push a child scope, run the statements tracking the
last value (starting from NULL), then restore the previous environment
(which keeps all in-place updates made to it). -/
def execBlock : Nat → List Stmt → Env → Option (Env × Except RunErr Value)
  | 0, _, _ => Option.none
  | fuel + 1, stmts, env =>
    match execSeq fuel stmts .null (Scope.empty :: env) with
    | Option.none => Option.none
    | some (env1, r) => some (env1.tail, r)

/-- The statement loop of `_execute_block`: `last = NULL; for s in
statements: last = self._execute(s)`. -/
def execSeq : Nat → List Stmt → Value → Env → Option (Env × Except RunErr Value)
  | 0, _, _, _ => Option.none
  | _ + 1, [], last, env => some (env, .ok last)
  | fuel + 1, s :: rest, _, env =>
    match execS fuel s env with
    | Option.none => Option.none
    | some (env1, .error err) => some (env1, .error err)
    | some (env1, .ok v) => execSeq fuel rest v env1

/-- `_execute_try_catch` (lines 322-343): run the try block; on a PowerLang
`RuntimeError`-class error take the first catch clause (or re-raise when
there is none); other errors propagate; finally always runs last and its own
error replaces the result. -/
def execTryCatch : Nat → List Stmt → List CatchClause → Option (List Stmt) →
    Env → Option (Env × Except RunErr Value)
  | 0, _, _, _, _ => Option.none
  | fuel + 1, tryStmts, catches, finOpt, env =>
    let inner : Option (Env × Except RunErr Value) :=
      match execBlock fuel tryStmts env with
      | Option.none => Option.none
      | some (env1, .ok v) => some (env1, .ok v)
      | some (env1, .error err) =>
        match err with
        | .host _ => some (env1, .error err)
        | .ppl e =>
          -- `except PplRuntimeError`: only RuntimeError and its subclasses
          if e.kind.isRuntimeSubclass then
            match catches with
            | [] => some (env1, .error err)
            | c :: _ => execCatch fuel c e env1
          else some (env1, .error err)
    match inner with
    | Option.none => Option.none
    | some (env5, r) =>
      match finOpt with
      | Option.none => some (env5, r)
      | some finStmts =>
        match execBlock fuel finStmts env5 with
        | Option.none => Option.none
        | some (env6, .ok _) => some (env6, r)
        | some (env6, .error err2) => some (env6, .error err2)

/-- One catch clause: push a child scope, bind the declared variable (if
any) to `str(e)` via `define`, run the catch block, restore the previous
environment. -/
def execCatch : Nat → CatchClause → PplError → Env →
    Option (Env × Except RunErr Value)
  | 0, _, _, _ => Option.none
  | fuel + 1, c, e, env =>
    let env2 : Env := Scope.empty :: env
    let bound : Except PplError Env :=
      match c.exceptionVariable with
      | Option.none => .ok env2
      | some lexeme =>
        let vname := if strStartsWith lexeme "$" then strLower (strDrop lexeme 1)
                     else lexeme
        envDefine env2 vname (.str (errStr e)) false
    match bound with
    | .error e2 => some (env, .error (.ppl e2))
    | .ok env3 =>
      match execBlock fuel c.block env3 with
      | Option.none => Option.none
      | some (env4, r) => some (env4.tail, r)
end

/-! ## Parameter binding at call sites (interpreter.py) -/

/-- `ParameterInfo` (values.py): parameter metadata for user functions. -/
structure ParameterInfo where
  name : String
  hasDefault : Bool := false
  deriving Repr

/-- The parameter-binding loop of the `FunctionValue` branch of `_eval_call`
(lines 539-547), as a transformer of the fresh call environment: positional
binding with a running `arg_idx`, skipping parameters named `this`/`self`
when a receiver is present, and binding NULL for missing trailing
arguments. -/
def bindFnCallParams (params : List ParameterInfo) (args : List Value)
    (hasThis : Bool) (env : Env) : Except PplError Env :=
  go params 0 env
where
  go : List ParameterInfo → Nat → Env → Except PplError Env
  | [], _, env => .ok env
  | p :: rest, argIdx, env =>
    if (p.name == "this" || p.name == "self") && hasThis then go rest argIdx env
    else if argIdx < args.length then
      match envDefine env p.name (args.getD argIdx .null) false with
      | .error e => .error e
      | .ok env1 => go rest (argIdx + 1) env1
    else
      match envDefine env p.name .null false with
      | .error e => .error e
      | .ok env1 => go rest argIdx env1

/-- The constructor-binding loop of the `ClassValue` branch of `_eval_call`
(lines 571-575): it uses the `enumerate` index rather than a separate
argument cursor, always skips `this`/`self`, and — unlike the other two call
sites — has no `else` branch, so a parameter with no matching argument is
left unbound. -/
def bindClassCallParams (params : List ParameterInfo) (args : List Value)
    (env : Env) : Except PplError Env :=
  go params 0 env
where
  go : List ParameterInfo → Nat → Env → Except PplError Env
  | [], _, env => .ok env
  | p :: rest, i, env =>
    if p.name == "this" || p.name == "self" then go rest (i + 1) env
    else if i < args.length then
      match envDefine env p.name (args.getD i .null) false with
      | .error e => .error e
      | .ok env1 => go rest (i + 1) env1
    else go rest (i + 1) env

/-- The constructor-binding loop of `_eval_new` (lines 643-651): like the
function-call loop (running `arg_idx`, NULL for missing trailing arguments)
but always skipping `this`/`self`. -/
def bindNewParams (params : List ParameterInfo) (args : List Value)
    (env : Env) : Except PplError Env :=
  go params 0 env
where
  go : List ParameterInfo → Nat → Env → Except PplError Env
  | [], _, env => .ok env
  | p :: rest, argIdx, env =>
    if p.name == "this" || p.name == "self" then go rest argIdx env
    else if argIdx < args.length then
      match envDefine env p.name (args.getD argIdx .null) false with
      | .error e => .error e
      | .ok env1 => go rest (argIdx + 1) env1
    else
      match envDefine env p.name .null false with
      | .error e => .error e
      | .ok env1 => go rest argIdx env1

/-! ## The scanner-based lexer (lexer/scanner.py, lexer/lexer.py)

Faithfulness notes that matter below:
  * `Scanner.peek` has default argument `offset = 0`, so every bare
    `self.scanner.peek()` call in lexer.py reads the *current* character,
    not the next one.  This is embedded literally (`Scanner.peek sc 0`);
    it makes the block-comment, hex/binary-prefix, float-dot and string
    interpolation branches unreachable.
  * `tokenize` marks the lexeme start *before* skipping whitespace, so a
    token lexeme includes the whitespace skipped right before it.
  * `Scanner.is_escaped` is called by `_scan_string` but never defined, so
    reaching a closing string delimiter raises a host `AttributeError`.
  * Character classes use the ASCII fragments of the Python `str` methods
    (all inputs in this development are ASCII).
-/

/-- Opening brace character (written via its code point to keep the Lean
source free of delimiter characters). -/
def lbraceChar : Char := Char.ofNat 123

/-- Closing brace character. -/
def rbraceChar : Char := Char.ofNat 125

/-- Backtick character. -/
def backquoteChar : Char := Char.ofNat 96

/-- Single quote character. -/
def singleQuoteChar : Char := Char.ofNat 39

/-- `SINGLE_CHAR_OPERATORS` (lexer/operators.py). -/
def singleCharOp? (c : Char) : Option TokType :=
  match c with
  | '+' => some .PLUS
  | '-' => some .MINUS
  | '*' => some .STAR
  | '/' => some .SLASH
  | '%' => some .PERCENT
  | '^' => some .CARET
  | '&' => some .AMPERSAND
  | '|' => some .PIPE
  | '~' => some .TILDE
  | '=' => some .EQUAL
  | '(' => some .LPAREN
  | ')' => some .RPAREN
  | '[' => some .LBRACKET
  | ']' => some .RBRACKET
  | '.' => some .DOT
  | ',' => some .COMMA
  | ':' => some .COLON
  | ';' => some .SEMICOLON
  | '@' => some .AT
  | '#' => some .HASH
  | '?' => some .QUESTION
  | '<' => some .LT
  | '>' => some .GT
  | c =>
    if c == lbraceChar then some .LBRACE
    else if c == rbraceChar then some .RBRACE
    else Option.none

/-- `MULTI_CHAR_OPERATORS` (lexer/operators.py). -/
def multiCharOp? (s : String) : Option TokType :=
  match s with
  | "-eq" => some .EQ
  | "-ne" => some .NE
  | "-gt" => some .GT
  | "-lt" => some .LT
  | "-ge" => some .GE
  | "-le" => some .LE
  | "-like" => some .LIKE
  | "-match" => some .MATCH
  | "-contains" => some .CONTAINS
  | "-notcontains" => some .NOTCONTAINS
  | "-in" => some .IN_OP
  | "-notin" => some .NOTIN
  | "-is" => some .IS_OP
  | "-isnot" => some .ISNOT
  | "-replace" => some .REPLACE
  | "-and" => some .AND
  | "-or" => some .OR
  | "-not" => some .NOT
  | "+=" => some .PLUS_EQUAL
  | "-=" => some .MINUS_EQUAL
  | "*=" => some .STAR_EQUAL
  | "/=" => some .SLASH_EQUAL
  | "%=" => some .PERCENT_EQUAL
  | "^=" => some .CARET_EQUAL
  | "&=" => some .AMPERSAND_EQUAL
  | "|=" => some .PIPE_EQUAL
  | "++" => some .PLUS_PLUS
  | "--" => some .MINUS_MINUS
  | "&&" => some .AMPERSAND_AMPERSAND
  | "||" => some .PIPE_PIPE
  | "^^" => some .CARET_CARET
  | "<<" => some .LESS_LESS
  | ">>" => some .GREATER_GREATER
  | "??" => some .QUESTION_QUESTION
  | "?." => some .QUESTION_DOT
  | "::" => some .DOUBLE_COLON
  | "=>" => some .ARROW
  | "..." => some .ELLIPSIS
  | "$\x7b" => some .DOLLAR_LBRACE
  | "<#" => some .BLOCK_COMMENT_START
  | "#>" => some .BLOCK_COMMENT_END
  | _ => Option.none

/-- `is_operator_start` (lexer/operators.py). -/
def isOperatorStart (c : Char) : Bool :=
  strContains "+-*/%=^&|~<>!?:.$#@" c

/-- `KEYWORDS` (lexer/keywords.py); lookup is by exact (case-sensitive)
string match, as in the source. -/
def keywordTok? (s : String) : Option TokType :=
  match s with
  | "class" => some .CLASS
  | "function" => some .FUNCTION
  | "return" => some .RETURN
  | "if" => some .IF
  | "else" => some .ELSE
  | "elseif" => some .ELSEIF
  | "for" => some .FOR
  | "while" => some .WHILE
  | "do" => some .DO
  | "foreach" => some .FOREACH
  | "in" => some .IN
  | "switch" => some .SWITCH
  | "case" => some .CASE
  | "default" => some .DEFAULT
  | "break" => some .BREAK
  | "continue" => some .CONTINUE
  | "namespace" => some .NAMESPACE
  | "using" => some .USING
  | "event" => some .EVENT
  | "const" => some .CONST
  | "new" => some .NEW
  | "this" => some .THIS
  | "null" => some .NULL
  | "true" => some .TRUE
  | "false" => some .FALSE
  | "try" => some .TRY
  | "catch" => some .CATCH
  | "finally" => some .FINALLY
  | "throw" => some .THROW
  | "import" => some .IMPORT
  | "export" => some .EXPORT
  | "from" => some .FROM
  | "as" => some .AS
  | "is" => some .IS
  | "instanceof" => some .INSTANCEOF
  | "typeof" => some .TYPEOF
  | "async" => some .ASYNC
  | "await" => some .AWAIT
  | _ => Option.none

/-- `TYPE_KEYWORDS` (lexer/keywords.py). -/
def typeKeywordTok? (s : String) : Option TokType :=
  match s with
  | "int" => some .INT_TYPE
  | "double" => some .DOUBLE_TYPE
  | "string" => some .STRING_TYPE
  | "bool" => some .BOOL_TYPE
  | "array" => some .ARRAY_TYPE
  | "void" => some .VOID_TYPE
  | "object" => some .OBJECT_TYPE
  | "datetime" => some .DATETIME_TYPE
  | "hashtable" => some .HASHTABLE_TYPE
  | "list" => some .LIST_TYPE
  | "dictionary" => some .DICTIONARY_TYPE
  | _ => Option.none

/-- `RESERVED_WORDS = KEYWORDS | TYPE_KEYWORDS`; `is_keyword` and
`get_keyword_token_type` both consult this combined table, so type keywords
are recognized even outside a type-annotation context. -/
def reservedTok? (s : String) : Option TokType :=
  match keywordTok? s with
  | some t => some t
  | Option.none => typeKeywordTok? s

/-- `is_type_keyword` (lexer/keywords.py). -/
def isTypeKeyword (s : String) : Bool :=
  (typeKeywordTok? s).isSome

/-- The scanner state (`Scanner` and `ScannerState` of lexer/scanner.py). -/
structure Scanner where
  source : List Char
  pos : Nat
  line : Nat
  col : Nat
  startPos : Nat
  startLine : Nat
  startCol : Nat
  inString : Bool
  stringDelimiter : Option Char
  inComment : Bool
  inBlockComment : Bool
  blockCommentDepth : Int
  braceDepth : Nat
  parenDepth : Nat
  bracketDepth : Nat
  deriving Repr, Inhabited

/-- A fresh scanner over a source text. -/
def Scanner.init (source : List Char) : Scanner :=
  { source := source, pos := 0, line := 1, col := 1,
    startPos := 0, startLine := 1, startCol := 1,
    inString := false, stringDelimiter := Option.none,
    inComment := false, inBlockComment := false, blockCommentDepth := 0,
    braceDepth := 0, parenDepth := 0, bracketDepth := 0 }

/-- `is_at_end`. -/
def Scanner.isAtEnd (sc : Scanner) : Bool := sc.source.length ≤ sc.pos

/-- `current_char`. -/
def Scanner.currentChar (sc : Scanner) : Option Char := sc.source.get? sc.pos

/-- `peek(offset)`; the Python default for `offset` is 0, so the bare
`peek()` calls of lexer.py correspond to `peek sc 0` here. -/
def Scanner.peek (sc : Scanner) (offset : Nat) : Option Char :=
  sc.source.get? (sc.pos + offset)

/-- `peek_string(length)` (truncated at end of source). -/
def Scanner.peekString (sc : Scanner) (length : Nat) : String :=
  String.mk ((sc.source.drop sc.pos).take length)

/-- `advance`: step one character, updating line/column. -/
def Scanner.advance (sc : Scanner) : Scanner :=
  match sc.currentChar with
  | Option.none => sc
  | some c =>
    if c == '\n' then { sc with pos := sc.pos + 1, line := sc.line + 1, col := 1 }
    else { sc with pos := sc.pos + 1, col := sc.col + 1 }

/-- `start_lexeme`. -/
def Scanner.startLexeme (sc : Scanner) : Scanner :=
  { sc with startPos := sc.pos, startLine := sc.line, startCol := sc.col }

/-- `get_lexeme`: the source slice from the lexeme start to the position. -/
def Scanner.getLexeme (sc : Scanner) : String :=
  String.mk ((sc.source.drop sc.startPos).take (sc.pos - sc.startPos))

/-- `is_whitespace`. -/
def Scanner.isWhitespace (sc : Scanner) : Bool :=
  match sc.currentChar with
  | some c => c.isWhitespace
  | Option.none => false

/-- `is_digit`. -/
def Scanner.isDigit (sc : Scanner) : Bool :=
  match sc.currentChar with
  | some c => c.isDigit
  | Option.none => false

/-- `is_hex_digit`. -/
def Scanner.isHexDigit (sc : Scanner) : Bool :=
  match sc.currentChar with
  | some c => c.toLower.isDigit || strContains "abcdef" c.toLower
  | Option.none => false

/-- `is_binary_digit`. -/
def Scanner.isBinaryDigit (sc : Scanner) : Bool :=
  match sc.currentChar with
  | some c => c == '0' || c == '1'
  | Option.none => false

/-- `is_letter_or_digit` / `is_identifier_part`. -/
def Scanner.isLetterOrDigit (sc : Scanner) : Bool :=
  match sc.currentChar with
  | some c => c.isAlphanum || c == '_'
  | Option.none => false

/-- `enter_string`. -/
def Scanner.enterString (sc : Scanner) (delim : Char) : Scanner :=
  { sc with inString := true, stringDelimiter := some delim }

/-- `exit_string`. -/
def Scanner.exitString (sc : Scanner) : Scanner :=
  { sc with inString := false, stringDelimiter := Option.none }

/-- `enter_block_comment`. -/
def Scanner.enterBlockComment (sc : Scanner) : Scanner :=
  { sc with inBlockComment := true, blockCommentDepth := sc.blockCommentDepth + 1 }

/-- `exit_block_comment`. -/
def Scanner.exitBlockComment (sc : Scanner) : Scanner :=
  let d := sc.blockCommentDepth - 1
  { sc with blockCommentDepth := d,
            inBlockComment := if d == 0 then false else sc.inBlockComment }

/-- `enter_brace`. -/
def Scanner.enterBrace (sc : Scanner) : Scanner :=
  { sc with braceDepth := sc.braceDepth + 1 }

/-- `exit_brace` (guarded at zero as in the source; `Nat` subtraction). -/
def Scanner.exitBrace (sc : Scanner) : Scanner :=
  { sc with braceDepth := sc.braceDepth - 1 }

/-- `enter_paren`. -/
def Scanner.enterParen (sc : Scanner) : Scanner :=
  { sc with parenDepth := sc.parenDepth + 1 }

/-- `exit_paren`. -/
def Scanner.exitParen (sc : Scanner) : Scanner :=
  { sc with parenDepth := sc.parenDepth - 1 }

/-- `enter_bracket`. -/
def Scanner.enterBracket (sc : Scanner) : Scanner :=
  { sc with bracketDepth := sc.bracketDepth + 1 }

/-- `exit_bracket`. -/
def Scanner.exitBracket (sc : Scanner) : Scanner :=
  { sc with bracketDepth := sc.bracketDepth - 1 }

/-- `skip_line_comment`: advance to the end of the line. -/
def Scanner.skipLineComment : Nat → Scanner → Scanner
  | 0, sc => sc
  | fuel + 1, sc =>
    if !sc.isAtEnd && sc.currentChar != some '\n' then
      Scanner.skipLineComment fuel sc.advance
    else sc

/-- A generic `while <cond>: advance` loop (each Python while-advance loop
below instantiates this with its literal condition). -/
def Scanner.advanceWhile : Nat → (Scanner → Bool) → Scanner → Scanner
  | 0, _, sc => sc
  | fuel + 1, p, sc =>
    if p sc then Scanner.advanceWhile fuel p sc.advance else sc

/-- A produced token (lexer/tokens.py `Token`); `literal` uses `PyVal.none`
for Python `None`. -/
structure Token where
  type : TokType
  lexeme : String
  literal : PyVal
  line : Nat
  column : Nat
  position : Nat
  deriving Repr, Inhabited

/-- The lexer state (`Lexer` of lexer/lexer.py). -/
structure LexState where
  scanner : Scanner
  tokens : List Token
  hadError : Bool
  errors : List String
  inTypeContext : Bool
  deriving Repr, Inhabited

/-- `_create_token`: a token stamped with the lexeme start position. -/
def LexState.createToken (st : LexState) (tt : TokType) (lexeme : String)
    (literal : PyVal) : Token :=
  { type := tt, lexeme := lexeme, literal := literal,
    line := st.scanner.startLine, column := st.scanner.startCol,
    position := st.scanner.startPos }

/-- `_error`: record the message and set `had_error` (the printed context
block carries only position data and is not modelled). -/
def LexState.recordError (st : LexState) (message : String) : LexState :=
  { st with hadError := true, errors := st.errors ++ [message] }

/-- Update just the scanner of a lexer state. -/
def LexState.withScanner (st : LexState) (sc : Scanner) : LexState :=
  { st with scanner := sc }

/-- The inner terminator search of the in-block-comment branch of
`_skip_whitespace_and_comments` (the `peek 0` comparison never sees `>`, so
when entered the loop consumes to the end of the source). -/
def blockCommentScan : Nat → Scanner → Scanner
  | 0, sc => sc
  | fuel + 1, sc =>
    if sc.isAtEnd then sc
    else if sc.currentChar == some '#' && sc.peek 0 == some '>' then
      sc.advance.advance.exitBlockComment
    else blockCommentScan fuel sc.advance

/-- `_skip_whitespace_and_comments`.  The `current == '<' and peek() == '#'`
test can never hold (the bare `peek()` reads the current character), and the
in-comment flags are never set by any reachable path, so in practice the
loop skips whitespace and `#` line comments. -/
def skipWsAndComments : Nat → LexState → LexState
  | 0, st => st
  | fuel + 1, st =>
    let sc := st.scanner
    if sc.isAtEnd then st
    else if sc.isWhitespace then
      skipWsAndComments fuel (st.withScanner sc.advance)
    else if sc.currentChar == some '#' && sc.peek 0 == some '#' then
      skipWsAndComments fuel
        (st.withScanner (Scanner.skipLineComment fuel sc.advance.advance))
    else if sc.currentChar == some '<' && sc.peek 0 == some '#' then
      st
    else if sc.inComment || sc.inBlockComment then
      if sc.inComment then
        skipWsAndComments fuel (st.withScanner (Scanner.skipLineComment fuel sc))
      else
        skipWsAndComments fuel (st.withScanner (blockCommentScan fuel sc))
    else st

/-- `_scan_variable`. -/
def scanVariable (fuel : Nat) (st : LexState) : LexState × Token :=
  let sc := st.scanner.advance
  if sc.currentChar == some lbraceChar then
    let sc := sc.advance
    let st := st.withScanner sc
    (st, st.createToken .DOLLAR_LBRACE sc.getLexeme .none)
  else
    let sc := Scanner.advanceWhile fuel Scanner.isLetterOrDigit sc
    let st := st.withScanner sc
    let lexeme := sc.getLexeme
    (st, st.createToken .DOLLAR lexeme (.str lexeme))

/-- The `escape_map` dict of `_escape_char`, in source order (backspace,
form feed, vertical tab and NUL written via code points). -/
def escapeMap : List (Char × Char) :=
  [(Char.ofNat 110, Char.ofNat 10), (Char.ofNat 114, Char.ofNat 13),
   (Char.ofNat 116, Char.ofNat 9), (Char.ofNat 98, Char.ofNat 8),
   (Char.ofNat 102, Char.ofNat 12), (Char.ofNat 118, Char.ofNat 11),
   (Char.ofNat 92, Char.ofNat 92), (Char.ofNat 34, Char.ofNat 34),
   (singleQuoteChar, singleQuoteChar), (backquoteChar, backquoteChar),
   (Char.ofNat 36, Char.ofNat 36), (Char.ofNat 48, Char.ofNat 0)]

/-- `_escape_char`: `escape_map.get(char)`. -/
def escapeChar (c : Char) : Option Char :=
  escapeMap.lookup c

/-- The character-collecting loop of `_scan_string`.  When the closing
delimiter is reached (unescaped or not), the loop condition calls the
nonexistent `Scanner.is_escaped`, raising a host `AttributeError`; the
interpolation branch compares `peek 0` (the current `$`) with a brace and
never fires. -/
def scanStringLoop : Nat → Char → List Char → Scanner →
    Except HostEvent (List Char × Scanner)
  | 0, _, acc, sc => .ok (acc, sc)
  | fuel + 1, delim, acc, sc =>
    if sc.isAtEnd then .ok (acc, sc)
    else if sc.currentChar == some delim then .error .attributeMissing
    else if sc.currentChar == some '\\' then
      let sc := sc.advance
      if sc.isAtEnd then .ok (acc, sc)
      else
        let c := sc.currentChar.getD ' '
        let acc := match escapeChar c with
                   | some e => acc ++ [e]
                   | Option.none => acc ++ ['\\', c]
        scanStringLoop fuel delim acc sc.advance
    else if sc.currentChar == some '$' && sc.peek 0 == some lbraceChar then
      let acc := acc ++ ['$'] ++ (match sc.peek 0 with
                                  | some c => [c]
                                  | Option.none => [])
      scanStringLoop fuel delim acc sc.advance
    else
      let acc := acc ++ [sc.currentChar.getD ' ']
      scanStringLoop fuel delim acc sc.advance

/-- `_scan_string`. -/
def scanString (fuel : Nat) (st : LexState) :
    Except HostEvent (LexState × Token) :=
  let delim := st.scanner.currentChar.getD '"'
  let sc := (st.scanner.enterString delim).advance
  match scanStringLoop fuel delim [] sc with
  | .error h => .error h
  | .ok (chars, sc) =>
    if sc.isAtEnd then
      let st := (st.withScanner sc).recordError "Unterminated string"
      let sc := sc.exitString
      let st := st.withScanner sc
      .ok (st, st.createToken .STRING sc.getLexeme (.str (String.mk chars)))
    else
      let sc := sc.advance.exitString
      let st := st.withScanner sc
      .ok (st, st.createToken .STRING sc.getLexeme (.str (String.mk chars)))

/-- `_scan_escape_string` (backtick-delimited raw string). -/
def scanEscapeString (fuel : Nat) (st : LexState) : LexState × Token :=
  let scStart := st.scanner.advance
  let sc := Scanner.advanceWhile fuel
    (fun sc => !sc.isAtEnd && sc.currentChar != some backquoteChar) scStart
  let chars := (sc.source.drop scStart.pos).take (sc.pos - scStart.pos)
  if sc.isAtEnd then
    let st := (st.withScanner sc).recordError "Unterminated escape string"
    (st, st.createToken .STRING sc.getLexeme (.str (String.mk chars)))
  else
    let sc := sc.advance
    let st := st.withScanner sc
    (st, st.createToken .STRING sc.getLexeme (.str (String.mk chars)))

/-- `_scan_comment` (`##` comments): skip both hashes, restart the lexeme,
run to end of line. -/
def scanComment (fuel : Nat) (st : LexState) : LexState × Token :=
  let sc := st.scanner.advance.advance.startLexeme
  let sc := Scanner.advanceWhile fuel
    (fun sc => !sc.isAtEnd && sc.currentChar != some '\n') sc
  let st := st.withScanner sc
  let lexeme := sc.getLexeme
  (st, st.createToken .COMMENT lexeme (.str (strTrim lexeme)))

/-- `_scan_single_line_comment` (`#` comments). -/
def scanSingleLineComment (fuel : Nat) (st : LexState) : LexState × Token :=
  let sc := st.scanner.advance.startLexeme
  let sc := Scanner.advanceWhile fuel
    (fun sc => !sc.isAtEnd && sc.currentChar != some '\n') sc
  let st := st.withScanner sc
  let lexeme := sc.getLexeme
  (st, st.createToken .COMMENT lexeme (.str (strTrim lexeme)))

/-- The terminator search of `_scan_block_comment_start`; on success it
builds the `BLOCK_COMMENT_END` token (appended by the caller), but the
`peek 0` comparison never sees `>` so the loop always consumes to the end of
the source without exiting block-comment mode. -/
def blockCommentStartLoop : Nat → Scanner → Scanner × Option Token
  | 0, sc => (sc, Option.none)
  | fuel + 1, sc =>
    if sc.isAtEnd then (sc, Option.none)
    else if sc.currentChar == some '#' && sc.peek 0 == some '>' then
      let sc := sc.advance.advance.exitBlockComment.startLexeme
      (sc,
       some { type := .BLOCK_COMMENT_END, lexeme := sc.getLexeme,
              literal := .none, line := sc.startLine, column := sc.startCol,
              position := sc.startPos })
    else blockCommentStartLoop fuel sc.advance

/-- `_scan_block_comment_start`.  (Unreachable from `_scan_token` because of
the `peek 0` comparison; embedded for completeness.)  Note the source quirk:
the end token is appended to the token list before the start token is
returned to the caller; and no error is recorded when the terminator is
missing at end of input. -/
def scanBlockCommentStart (fuel : Nat) (st : LexState) : LexState × Token :=
  let sc := st.scanner.advance.advance
  let st1 := st.withScanner sc
  let startTok := st1.createToken .BLOCK_COMMENT_START sc.getLexeme .none
  let sc := sc.enterBlockComment
  let (sc, endTok) := blockCommentStartLoop fuel sc
  let endToks : List Token := match endTok with
                              | some t => [t]
                              | Option.none => []
  let st2 := { st1 with scanner := sc, tokens := st1.tokens ++ endToks }
  (st2, startTok)

/-- One Python-digit value, bounded by the base. -/
def charDigitVal (base : Nat) (c : Char) : Option Nat :=
  let v :=
    if c.isDigit then some (c.toNat - 48)
    else if 'a' ≤ c.toLower && c.toLower ≤ 'f' then some (c.toLower.toNat - 87)
    else Option.none
  match v with
  | some v => if v < base then some v else Option.none
  | Option.none => Option.none

/-- Value of a nonempty digit string in a base. -/
def digitsVal (base : Nat) (cs : List Char) : Option Nat :=
  if cs.isEmpty then Option.none
  else cs.foldl (fun acc c =>
    match acc, charDigitVal base c with
    | some a, some d => some (a * base + d)
    | _, _ => Option.none) (some 0)

/-- Python `int(s)` / `int(s, 16)` / `int(s, 2)`: surrounding whitespace, an
optional sign, an optional base prefix matching the base, then digits. -/
def intOfPyLiteral (base : Nat) (s : String) : Option Int :=
  let cs := (strTrim s).data
  let signAndRest : Int × List Char :=
    match cs with
    | '-' :: rest => (-1, rest)
    | '+' :: rest => (1, rest)
    | cs => (1, cs)
  let sign := signAndRest.1
  let cs := signAndRest.2
  let cs :=
    match base, cs with
    | 16, '0' :: c :: rest => if c == 'x' || c == 'X' then rest else '0' :: c :: rest
    | 2, '0' :: c :: rest => if c == 'b' || c == 'B' then rest else '0' :: c :: rest
    | _, cs => cs
  match digitsVal base cs with
  | some n => some (sign * n)
  | Option.none => Option.none

/-- Python `float(s)` for the shapes `_scan_number` can produce
(`digits.digits` with an optional exponent), as an exact rational. -/
def floatOfPyLiteral (s : String) : Option Rat :=
  let cs := (strTrim s).data
  let signAndRest : Rat × List Char :=
    match cs with
    | '-' :: rest => (-1, rest)
    | '+' :: rest => (1, rest)
    | cs => (1, cs)
  let sign := signAndRest.1
  let cs := signAndRest.2
  let mant := cs.takeWhile (fun c => c != 'e' && c != 'E')
  let rest := cs.dropWhile (fun c => c != 'e' && c != 'E')
  let intPart := mant.takeWhile (fun c => c != '.')
  let fracPart := (mant.dropWhile (fun c => c != '.')).drop 1
  let expVal : Option Int :=
    match rest with
    | [] => some 0
    | _ :: es =>
      match es with
      | '-' :: ds => (digitsVal 10 ds).map (fun n => -(n : Int))
      | '+' :: ds => (digitsVal 10 ds).map (fun n => (n : Int))
      | ds => (digitsVal 10 ds).map (fun n => (n : Int))
  match digitsVal 10 intPart,
        digitsVal 10 (if fracPart.isEmpty then ['0'] else fracPart), expVal with
  | some ip, some fp, some e =>
    let mantissa : Rat := (ip : Rat) + (fp : Rat) / ((10 : Rat) ^ fracPart.length)
    let scaled := if 0 ≤ e then mantissa * (10 : Rat) ^ e.toNat
                  else mantissa / (10 : Rat) ^ (-e).toNat
    some (sign * scaled)
  | _, _, _ => Option.none

/-- `_scan_hex_number`. -/
def scanHexNumber (fuel : Nat) (st : LexState) : LexState × Token :=
  let sc := Scanner.advanceWhile fuel Scanner.isHexDigit st.scanner
  let st := st.withScanner sc
  let lexeme := sc.getLexeme
  let hexStr := if strStartsWith (strLower lexeme) "0x" then strDrop lexeme 2
                else lexeme
  if hexStr == "" then
    (st.recordError "Invalid hexadecimal number",
     st.createToken .INTEGER lexeme (.int 0))
  else
    match intOfPyLiteral 16 hexStr with
    | some n => (st, st.createToken .INTEGER lexeme (.int n))
    | Option.none =>
      (st.recordError ("Invalid hexadecimal number: " ++ lexeme),
       st.createToken .INTEGER lexeme (.int 0))

/-- `_scan_binary_number`. -/
def scanBinaryNumber (fuel : Nat) (st : LexState) : LexState × Token :=
  let sc := Scanner.advanceWhile fuel Scanner.isBinaryDigit st.scanner
  let st := st.withScanner sc
  let lexeme := sc.getLexeme
  let binStr := if strStartsWith (strLower lexeme) "0b" then strDrop lexeme 2
                else lexeme
  if binStr == "" then
    (st.recordError "Invalid binary number",
     st.createToken .INTEGER lexeme (.int 0))
  else
    match intOfPyLiteral 2 binStr with
    | some n => (st, st.createToken .INTEGER lexeme (.int n))
    | Option.none =>
      (st.recordError ("Invalid binary number: " ++ lexeme),
       st.createToken .INTEGER lexeme (.int 0))

/-- `_scan_number`.  The hex/binary-prefix and decimal-point guards compare
`peek 0` (the current character), so on every input the decimal-integer
branch is taken; the other branches are embedded as written.  The float
branch reads `current_char.lower()` which raises a host `AttributeError` at
end of input. -/
def scanNumber (fuel : Nat) (st : LexState) :
    Except HostEvent (LexState × Token) :=
  let sc := st.scanner
  if sc.currentChar == some '0' && !sc.isAtEnd &&
     (match sc.peek 0 with
      | some c => c == 'x' || c == 'X' || c == 'b' || c == 'B'
      | Option.none => false) then
    let prefixChar := (sc.peek 0).getD 'x'
    let sc := sc.advance.advance
    let st := st.withScanner sc
    if prefixChar.toLower == 'x' then .ok (scanHexNumber fuel st)
    else .ok (scanBinaryNumber fuel st)
  else
    let sc := Scanner.advanceWhile fuel Scanner.isDigit sc
    if sc.currentChar == some '.' &&
       (sc.peek 0).isSome && ((sc.peek 0).getD ' ').isDigit then
      let sc := sc.advance
      let sc := Scanner.advanceWhile fuel Scanner.isDigit sc
      match sc.currentChar with
      | Option.none => .error .attributeMissing
      | some c =>
        let stsc : LexState :=
          if c.toLower == 'e' then
            let sc := sc.advance
            let sc := if sc.currentChar == some '+' || sc.currentChar == some '-'
                      then sc.advance else sc
            let st2 := if !sc.isDigit
                       then (st.withScanner sc).recordError
                              "Invalid floating point exponent"
                       else st.withScanner sc
            let sc := Scanner.advanceWhile fuel Scanner.isDigit sc
            st2.withScanner sc
          else st.withScanner sc
        let lexeme := stsc.scanner.getLexeme
        match floatOfPyLiteral lexeme with
        | some q => .ok (stsc, stsc.createToken .DOUBLE lexeme (.float q))
        | Option.none =>
          .ok (stsc.recordError ("Invalid floating point number: " ++ lexeme),
               stsc.createToken .DOUBLE lexeme (.float 0))
    else
      let st := st.withScanner sc
      let lexeme := sc.getLexeme
      match intOfPyLiteral 10 lexeme with
      | some n => .ok (st, st.createToken .INTEGER lexeme (.int n))
      | Option.none =>
        .ok (st.recordError ("Invalid integer: " ++ lexeme),
             st.createToken .INTEGER lexeme (.int 0))

/-- `_scan_identifier_or_keyword`.  `is_keyword` consults the combined
reserved-word table (keywords plus type keywords), case-sensitively. -/
def scanIdentifierOrKeyword (fuel : Nat) (st : LexState) : LexState × Token :=
  let sc := Scanner.advanceWhile fuel Scanner.isLetterOrDigit st.scanner
  let st := st.withScanner sc
  let lexeme := sc.getLexeme
  match reservedTok? lexeme with
  | some tt =>
    if tt == .TRUE then (st, st.createToken tt lexeme (.bool true))
    else if tt == .FALSE then (st, st.createToken tt lexeme (.bool false))
    else if tt == .NULL then (st, st.createToken tt lexeme .none)
    else (st, st.createToken tt lexeme .none)
  | Option.none =>
    if st.inTypeContext && isTypeKeyword lexeme then
      (st, st.createToken ((reservedTok? lexeme).getD .IDENTIFIER) lexeme .none)
    else (st, st.createToken .IDENTIFIER lexeme (.str lexeme))

/-- `_scan_operator`: fixed-length longest match, lengths 4, 3, 2 against
the multi-character table, then the single-character table, then the
unexpected-character error fallback. -/
def scanOperator (st : LexState) : LexState × Token :=
  let sc := st.scanner
  match multiCharOp? (sc.peekString 4) with
  | some tt =>
    let sc := sc.advance.advance.advance.advance
    let st := st.withScanner sc
    (st, st.createToken tt sc.getLexeme .none)
  | Option.none =>
  match multiCharOp? (sc.peekString 3) with
  | some tt =>
    let sc := sc.advance.advance.advance
    let st := st.withScanner sc
    (st, st.createToken tt sc.getLexeme .none)
  | Option.none =>
  match multiCharOp? (sc.peekString 2) with
  | some tt =>
    let sc := sc.advance.advance
    let st := st.withScanner sc
    (st, st.createToken tt sc.getLexeme .none)
  | Option.none =>
  match sc.currentChar with
  | some c =>
    match singleCharOp? c with
    | some tt =>
      let sc := sc.advance
      let st := st.withScanner sc
      (st, st.createToken tt sc.getLexeme .none)
    | Option.none =>
      let sc := sc.advance
      let st := st.withScanner sc
      let lexeme := sc.getLexeme
      let st := st.recordError ("Unexpected character: " ++ String.mk [c])
      (st, st.createToken .IDENTIFIER lexeme (.str lexeme))
  | Option.none =>
    let st := st.recordError "Unexpected character: None"
    (st, st.createToken .IDENTIFIER st.scanner.getLexeme
           (.str st.scanner.getLexeme))

/-- `_scan_single_char_token`: map through the single-character table
(defaulting to IDENTIFIER) and maintain the nesting depths. -/
def scanSingleCharToken (st : LexState) : LexState × Token :=
  let sc := st.scanner
  let tt := match sc.currentChar with
            | some c => (singleCharOp? c).getD .IDENTIFIER
            | Option.none => .IDENTIFIER
  let sc := sc.advance
  let lexeme := sc.getLexeme
  let sc :=
    if tt == .LBRACE then sc.enterBrace
    else if tt == .RBRACE then sc.exitBrace
    else if tt == .LPAREN then sc.enterParen
    else if tt == .RPAREN then sc.exitParen
    else if tt == .LBRACKET then sc.enterBracket
    else if tt == .RBRACKET then sc.exitBracket
    else sc
  let st := st.withScanner sc
  (st, st.createToken tt lexeme .none)

/-- `_scan_token`: skip whitespace/comments, then dispatch on the current
character in source order.  The block-comment branch requires
`peek 0 == '#'` while the current character is `<`, so it never fires and a
`<#` pair is matched later by `_scan_operator` through the multi-character
table. -/
def scanToken (fuel : Nat) (st : LexState) :
    Except HostEvent (LexState × Option Token) :=
  let st := skipWsAndComments fuel st
  if st.scanner.isAtEnd then .ok (st, Option.none)
  else
    let sc := st.scanner
    let char := sc.currentChar.getD ' '
    if char == '$' then
      let r := scanVariable fuel st
      .ok (r.1, some r.2)
    else if char == '"' || char == singleQuoteChar then
      match scanString fuel st with
      | .ok (st, t) => .ok (st, some t)
      | .error h => .error h
    else if char == backquoteChar then
      let r := scanEscapeString fuel st
      .ok (r.1, some r.2)
    else if char == '#' && sc.peek 0 == some '#' then
      let r := scanComment fuel st
      .ok (r.1, some r.2)
    else if char == '<' && sc.peek 0 == some '#' then
      let r := scanBlockCommentStart fuel st
      .ok (r.1, some r.2)
    else if char == '#' then
      let r := scanSingleLineComment fuel st
      .ok (r.1, some r.2)
    else if char.isDigit then
      match scanNumber fuel st with
      | .ok (st, t) => .ok (st, some t)
      | .error h => .error h
    else if char.isAlpha || char == '_' then
      let r := scanIdentifierOrKeyword fuel st
      .ok (r.1, some r.2)
    else if isOperatorStart char then
      let r := scanOperator st
      .ok (r.1, some r.2)
    else if char == '[' then
      let r := scanSingleCharToken st
      let st := if r.2.type == .LBRACKET
                then { r.1 with inTypeContext := true } else r.1
      .ok (st, some r.2)
    else if char == ']' then
      let r := scanSingleCharToken st
      let st := if r.2.type == .RBRACKET
                then { r.1 with inTypeContext := false } else r.1
      .ok (st, some r.2)
    else
      let r := scanSingleCharToken st
      .ok (r.1, some r.2)

/-- The main loop of `tokenize`: mark the lexeme start (before whitespace is
skipped — the source quirk that makes lexemes include leading whitespace),
scan one token, append it. -/
def tokenizeLoop : Nat → LexState → Except HostEvent LexState
  | 0, st => .ok st
  | fuel + 1, st =>
    if st.scanner.isAtEnd then .ok st
    else
      let st := st.withScanner st.scanner.startLexeme
      match scanToken fuel st with
      | .error h => .error h
      | .ok (st, Option.none) => tokenizeLoop fuel st
      | .ok (st, some t) => tokenizeLoop fuel { st with tokens := st.tokens ++ [t] }

/-- `Lexer(source).tokenize()`: run the loop and append the EOF token at the
final scanner position. -/
def tokenize (source : String) : Except HostEvent LexState :=
  let st : LexState :=
    { scanner := Scanner.init source.data, tokens := [], hadError := false,
      errors := [], inTypeContext := false }
  match tokenizeLoop (source.data.length + 2) st with
  | .error h => .error h
  | .ok st =>
    let sc := st.scanner
    .ok { st with tokens := st.tokens ++
          [{ type := .EOF, lexeme := "", literal := .none,
             line := sc.line, column := sc.col, position := sc.pos }] }

/-! ## The legacy lexer (src/lexer.py): `read_ps_operator`

In the legacy lexer `peek` defaults to offset 1 (the next character), and
`read_ps_operator` is entered when the current character is `-` and the next
is a letter: it greedily consumes the whole `-word`, looks the lowercased
word up in a fixed table, and raises `SyntaxError` for an unknown word. -/

/-- The legacy lexer state (source text and cursor with line/column). -/
structure LegacyLexer where
  source : List Char
  position : Nat
  line : Nat
  column : Nat
  deriving Repr, Inhabited

/-- Legacy `current_char`. -/
def LegacyLexer.currentChar (lx : LegacyLexer) : Option Char :=
  lx.source.get? lx.position

/-- Legacy `advance`: returns the character stepped over. -/
def LegacyLexer.advance (lx : LegacyLexer) : Option Char × LegacyLexer :=
  let c := lx.currentChar
  let lx := { lx with position := lx.position + 1 }
  match c with
  | some ch =>
    if ch == '\n' then (c, { lx with line := lx.line + 1, column := 1 })
    else (c, { lx with column := lx.column + 1 })
  | Option.none => (c, { lx with column := lx.column + 1 })

/-- A legacy token (type, string value, position); the tokens the mapping of
`read_ps_operator` can produce reuse the shared `TokType` names. -/
structure LegacyToken where
  type : TokType
  value : String
  line : Nat
  column : Nat
  deriving Repr, Inhabited

/-- The letter-consuming loop of `read_ps_operator`. -/
def legacyConsumeLetters : Nat → LegacyLexer → List Char →
    List Char × LegacyLexer
  | 0, lx, acc => (acc, lx)
  | fuel + 1, lx, acc =>
    match lx.currentChar with
    | some c =>
      if c.isAlpha then
        legacyConsumeLetters fuel lx.advance.2 (acc ++ [c])
      else (acc, lx)
    | Option.none => (acc, lx)

/-- The `-word` → token mapping of `read_ps_operator`. -/
def legacyPsOp? (s : String) : Option TokType :=
  match s with
  | "-eq" => some .EQ
  | "-ne" => some .NE
  | "-gt" => some .GT
  | "-lt" => some .LT
  | "-ge" => some .GE
  | "-le" => some .LE
  | "-and" => some .AND
  | "-or" => some .OR
  | "-not" => some .NOT
  | _ => Option.none

/-- `read_ps_operator` (src/lexer.py lines 245-270): greedily read `-` plus
all following letters, look the lowercased word up, and raise `SyntaxError`
(modelled as the error string) when the word is unknown. -/
def readPsOperator (lx : LegacyLexer) : Except String (LegacyToken × LegacyLexer) :=
  let startLine := lx.line
  let startCol := lx.column
  let stepped := lx.advance
  let first : List Char := match stepped.1 with
                           | some c => [c]
                           | Option.none => []
  let consumed := legacyConsumeLetters (lx.source.length + 1) stepped.2 first
  let value := String.mk consumed.1
  match legacyPsOp? (strLower value) with
  | some tt =>
    .ok ({ type := tt, value := value, line := startLine, column := startCol },
         consumed.2)
  | Option.none =>
    .error ("Unknown operator " ++ sq ++ value ++ sq ++ " at " ++
            toString startLine ++ ":" ++ toString startCol)

/-- The innermost scope of a chain that binds a key (used to state C1; the
claim speaks of "the current scope or any ancestor scope"). -/
def firstBindingIdx (key : String) : Env → Option Nat
  | [] => Option.none
  | sc :: rest =>
    if (Scope.lookup sc key).isSome then some 0
    else (firstBindingIdx key rest).map (· + 1)

/-- Projection of a lexer result to the parts the lexer claims are about:
(token type, lexeme) pairs, the error list, and the error flag. -/
def tokenSummary (r : Except HostEvent LexState) :
    Option (List (TokType × String) × List String × Bool) :=
  r.toOption.map (fun st =>
    (st.tokens.map (fun t => (t.type, t.lexeme)), st.errors, st.hadError))

/-- The value of the running `arg_idx` when the function-call binding loop
(started at 0) reaches parameter `j`: the number of parameters before `j`
that are not skipped as `this`/`self` receivers (used to state C7; the
claim speaks of positional binding). -/
def argSlot (hasThis : Bool) (params : List ParameterInfo) (j : Nat) : Nat :=
  ((params.take j).filter
    (fun q => !((q.name == "this" || q.name == "self") && hasThis))).length

/-! ## Helper lemmas -/

/-- After a dict set, looking the written key up yields the written value. -/
theorem lookup_setAssoc_self (key : String) (v : Value) (l : List (String × Value)) :
    List.lookup key (setAssoc key v l) = some v := by
  induction l with
  | nil => simp [setAssoc, List.lookup]
  | cons kw rest ih =>
    obtain ⟨k, w⟩ := kw
    by_cases h : k = key
    · subst h
      simp [setAssoc, List.lookup]
    · have hb : (key == k) = false := beq_eq_false_iff_ne.mpr (Ne.symm h)
      have hb2 : (k == key) = false := beq_eq_false_iff_ne.mpr h
      simp [setAssoc, List.lookup, hb, hb2, ih]

/-- A dict set leaves other keys unchanged. -/
theorem lookup_setAssoc_ne (k key : String) (v : Value) (l : List (String × Value))
    (hne : k ≠ key) : List.lookup k (setAssoc key v l) = List.lookup k l := by
  have hb : (k == key) = false := beq_eq_false_iff_ne.mpr hne
  induction l with
  | nil => simp [setAssoc, List.lookup, hb]
  | cons kw rest ih =>
    obtain ⟨k0, w⟩ := kw
    by_cases h : k0 = key
    · subst h
      simp [setAssoc, List.lookup, hb]
    · have hb2 : (k0 == key) = false := beq_eq_false_iff_ne.mpr h
      simp [setAssoc, List.lookup, hb2, ih]

/-- Setting a key that is already present does not change the key set. -/
theorem setAssoc_keys (key : String) (v : Value) (l : List (String × Value))
    (h : (List.lookup key l).isSome = true) :
    (setAssoc key v l).map Prod.fst = l.map Prod.fst := by
  induction l with
  | nil => simp [List.lookup] at h
  | cons kw rest ih =>
    obtain ⟨k, w⟩ := kw
    by_cases hk : k = key
    · subst hk
      simp [setAssoc]
    · have hb : (key == k) = false := beq_eq_false_iff_ne.mpr (Ne.symm hk)
      have hb2 : (k == key) = false := beq_eq_false_iff_ne.mpr hk
      rw [List.lookup] at h
      rw [hb] at h
      simp [setAssoc, hb2, ih h]

/-- When no scope binds the key, the define walk finds nothing. -/
theorem defineWalk_of_firstBindingIdx_none (name key : String) (v : Value)
    (constant : Bool) :
    ∀ env : Env, firstBindingIdx key env = Option.none →
    defineWalk name key v constant env = Option.none := by
  intro env
  induction env with
  | nil => intro _; rfl
  | cons sc rest ih =>
    intro h
    by_cases hs : (Scope.lookup sc key).isSome = true
    · simp [firstBindingIdx, hs] at h
    · simp [firstBindingIdx, hs] at h
      simp [defineWalk, hs, ih h]

/-- When the innermost binding of the key is at index `i` and is not marked
constant there, the define walk updates exactly that scope in place. -/
theorem defineWalk_of_firstBindingIdx_some (name key : String) (v : Value) :
    ∀ (env : Env) (i : Nat) (sc : Scope),
    firstBindingIdx key env = some i →
    env[i]? = some sc →
    sc.consts.contains key = false →
    defineWalk name key v false env = some (.ok (env.set i (sc.set key v))) := by
  intro env
  induction env with
  | nil => intro i sc h; simp [firstBindingIdx] at h
  | cons sc0 rest ih =>
    intro i sc h hget hconst
    by_cases hs : (Scope.lookup sc0 key).isSome = true
    · simp [firstBindingIdx, hs] at h
      subst h
      simp at hget
      subst hget
      have hmem : key ∉ sc0.consts := by simpa using hconst
      simp [defineWalk, hs, hmem, List.set]
    · simp [firstBindingIdx, hs] at h
      obtain ⟨j, hj, hij⟩ := h
      subst hij
      simp at hget
      have hw := ih j sc hj hget hconst
      simp [defineWalk, hs, hw, List.set]

/-- If no scope binds the name, `get_optional` fails. -/
theorem envGetOptional_eq_none_of_firstBindingIdx_none (name : String) :
    ∀ env : Env, firstBindingIdx (normalizeName name) env = Option.none →
    envGetOptional env name = Option.none := by
  intro env
  induction env with
  | nil => intro _; rfl
  | cons sc rest ih =>
    intro h
    by_cases hs : (Scope.lookup sc (normalizeName name)).isSome = true
    · simp [firstBindingIdx, hs] at h
    · simp [firstBindingIdx, hs] at h
      have hnone : Scope.lookup sc (normalizeName name) = Option.none := by
        cases hx : Scope.lookup sc (normalizeName name) with
        | none => rfl
        | some _ => simp [hx] at hs
      simp [envGetOptional, hnone, ih h]

/-- Converse: if `get_optional` fails, no scope binds the name. -/
theorem firstBindingIdx_eq_none_of_envGetOptional_none (name : String) :
    ∀ env : Env, envGetOptional env name = Option.none →
    firstBindingIdx (normalizeName name) env = Option.none := by
  intro env
  induction env with
  | nil => intro _; rfl
  | cons sc rest ih =>
    intro h
    cases hx : Scope.lookup sc (normalizeName name) with
    | some w => simp [envGetOptional, hx] at h
    | none =>
      simp [envGetOptional, hx] at h
      simp [firstBindingIdx, hx, ih h]

/-- C1: `Environment.define` of a name with an existing, non-constant
binding in the innermost scope that has one (index `i` of the chain, the
current scope being index 0) updates that binding in place: only scope `i`
is replaced (`List.set`), and its key set is unchanged — so no new
shadowing binding appears anywhere, in particular not in the current
scope.  Only when no scope on the chain binds the name is a fresh binding
added to the current scope (the chain head), the ancestors unchanged. -/
theorem environment_define_upward_updates_in_place
    (env : Env) (name : String) (v : Value) :
    (∀ (i : Nat) (sc : Scope),
        firstBindingIdx (normalizeName name) env = some i →
        env[i]? = some sc →
        sc.consts.contains (normalizeName name) = false →
        envDefine env name v false = .ok (env.set i (sc.set (normalizeName name) v)) ∧
        (sc.set (normalizeName name) v).values.map Prod.fst = sc.values.map Prod.fst) ∧
    (firstBindingIdx (normalizeName name) env = Option.none →
        ∀ (sc0 : Scope) (rest : Env), env = sc0 :: rest →
        envDefine env name v false = .ok (sc0.set (normalizeName name) v :: rest) ∧
        Scope.lookup sc0 (normalizeName name) = Option.none) := by
  constructor
  · intro i sc hidx hget hconst
    constructor
    · have hw := defineWalk_of_firstBindingIdx_some name (normalizeName name) v env
        i sc hidx hget hconst
      simp [envDefine, hw]
    · have hks : (List.lookup (normalizeName name) sc.values).isSome = true := by
        clear hconst
        induction env generalizing i with
        | nil => simp [firstBindingIdx] at hidx
        | cons sc0 rest ih =>
          by_cases hs : (Scope.lookup sc0 (normalizeName name)).isSome = true
          · simp [firstBindingIdx, hs] at hidx
            subst hidx
            simp at hget
            subst hget
            exact hs
          · simp [firstBindingIdx, hs] at hidx
            obtain ⟨j, hj, hij⟩ := hidx
            subst hij
            simp at hget
            exact ih j hj hget
      exact setAssoc_keys (normalizeName name) v sc.values hks
  · intro hnone sc0 rest henv
    subst henv
    have hw := defineWalk_of_firstBindingIdx_none name (normalizeName name) v false _ hnone
    constructor
    · simp [envDefine, hw]
    · by_cases hs : (Scope.lookup sc0 (normalizeName name)).isSome = true
      · simp [firstBindingIdx, hs] at hnone
      · cases hx : Scope.lookup sc0 (normalizeName name) with
        | none => rfl
        | some _ => simp [hx] at hs

/-- C1 witness: on the chain [inner scope (empty), outer scope binding x to
1], defining x to 2 rewrites the outer binding in place; and defining a
fresh name y creates it in the inner (current) scope. -/
theorem environment_define_upward_updates_in_place_witness :
    envDefine [Scope.empty, { values := [("x", Value.int 1)], consts := [] }]
        "x" (Value.int 2) false
      = .ok [Scope.empty, { values := [("x", Value.int 2)], consts := [] }] ∧
    envDefine [Scope.empty] "y" (Value.int 3) false
      = .ok [{ values := [("y", Value.int 3)], consts := [] }] := by
  constructor
  · exact ((environment_define_upward_updates_in_place
      [Scope.empty, { values := [("x", Value.int 1)], consts := [] }]
      "x" (Value.int 2)).1 1 { values := [("x", Value.int 1)], consts := [] }
      (by rfl) (by rfl) (by rfl)).1
  · exact ((environment_define_upward_updates_in_place
      [Scope.empty] "y" (Value.int 3)).2 (by rfl) Scope.empty [] rfl).1

/-- C2 (counterexample): `5 / 0` raises the plain `RuntimeError` class with
message "Division by zero" — not the `DivisionByZeroError` subclass, which
is a distinct error kind that the evaluator never raises. -/
theorem division_by_zero_raises_plain_runtime_error :
    evalBinaryOp .SLASH (.int 5) (.int 0)
      = .error (.ppl { kind := .runtimeErr, message := "Division by zero" }) ∧
    ErrKind.runtimeErr ≠ ErrKind.divisionByZeroErr :=
  ⟨rfl, by decide⟩

/-- C2 (amended): with a zero right operand (`IntValue 0` or `FloatValue 0`)
both `/` and `%` raise — before dividing — a `RuntimeError` with message
"Division by zero" (the generic runtime-error class, not the unused
`DivisionByZeroError` subclass), whatever the left operand; and the other
arithmetic operators `+ - * ^` return a value (no error) on zero
operands. -/
theorem zero_divisor_raises_and_other_arithmetic_does_not
    (a b : Value) (ha : a = Value.int 0 ∨ a = Value.float 0)
    (hb : b = Value.int 0 ∨ b = Value.float 0) :
    (∀ x : Value, evalBinaryOp .SLASH x b
        = .error (.ppl { kind := .runtimeErr, message := "Division by zero" })) ∧
    (∀ x : Value, evalBinaryOp .PERCENT x b
        = .error (.ppl { kind := .runtimeErr, message := "Division by zero" })) ∧
    (∀ op : TokType, (op = .PLUS ∨ op = .MINUS ∨ op = .STAR ∨ op = .CARET) →
        ∃ v, evalBinaryOp op a b = .ok v) := by
  rcases ha with ha | ha <;> rcases hb with hb | hb <;> subst ha <;> subst hb <;>
    refine ⟨fun x => rfl, fun x => rfl, fun op hop => ?_⟩ <;>
    (rcases hop with h | h | h | h <;> subst h <;> exact ⟨_, rfl⟩)

/-- C2 witness for the amended theorem at the zero integer operands. -/
theorem zero_divisor_raises_witness :
    evalBinaryOp .SLASH (.int 7) (.int 0)
      = .error (.ppl { kind := .runtimeErr, message := "Division by zero" }) ∧
    ∃ v, evalBinaryOp .PLUS (.int 0) (.int 0) = .ok v := by
  have h := zero_divisor_raises_and_other_arithmetic_does_not
    (Value.int 0) (Value.int 0) (Or.inl rfl) (Or.inl rfl)
  exact ⟨h.1 (.int 7), h.2.2 .PLUS (Or.inl rfl)⟩

/-- C3: for `-and`/`-or` both operands are evaluated, in order, threading
every state change — the right operand even when the left operand already
decides the result — and the results are combined by truthiness. -/
theorem and_or_evaluates_both_operands
    (fuel : Nat) (l r : Expr) (env env1 env2 : Env) (lv rv : Value)
    (hl : evalE fuel l env = some (env1, .ok lv))
    (hr : evalE fuel r env1 = some (env2, .ok rv)) :
    evalE (fuel + 1) (.BinaryOperation .AND l r) env
      = some (env2, .ok (.bool (lv.isTruthy && rv.isTruthy))) ∧
    evalE (fuel + 1) (.BinaryOperation .OR l r) env
      = some (env2, .ok (.bool (lv.isTruthy || rv.isTruthy))) := by
  constructor <;> simp [evalE, hl, hr, evalBinaryOp]

/-- C3 witness: `0 -and ($x = 1)` evaluates to false, yet the assignment in
the right operand has executed (x is 1 afterwards). -/
theorem and_or_evaluates_both_operands_witness :
    evalE 4 (.BinaryOperation .AND (.Literal (.int 0))
        (.Assignment (.Variable "$x") .EQUAL (.Literal (.int 1)))) [Scope.empty]
      = some ([{ values := [("x", Value.int 1)], consts := [] }],
              .ok (.bool false)) := by
  exact (and_or_evaluates_both_operands 3 (.Literal (.int 0))
    (.Assignment (.Variable "$x") .EQUAL (.Literal (.int 1))) [Scope.empty]
    [Scope.empty] [{ values := [("x", Value.int 1)], consts := [] }]
    (.int 0) (.int 1) rfl rfl).1

/-- C4 (counterexample): a plain `=` assignment to the undefined name `x`
does not raise `NameError`: it succeeds, creates the binding and returns
the assigned value. -/
theorem assign_undefined_creates_variable_counterexample :
    envGetOptional [Scope.empty] "x" = Option.none ∧
    evalE 3 (.Assignment (.Variable "$x") .EQUAL (.Literal (.int 5))) [Scope.empty]
      = some ([{ values := [("x", Value.int 5)], consts := [] }], .ok (.int 5)) :=
  ⟨rfl, rfl⟩

/-- C4 (amended): a plain `=` assignment whose target variable is bound in
no scope does not fail: `_assign_target` sees `get_optional` return nothing
and `define`s the variable — a fresh binding in the current scope — and the
assignment returns the value. -/
theorem assign_undefined_defines_in_current_scope
    (fuel : Nat) (lexeme : String) (e : Expr) (env : Env)
    (sc0 : Scope) (rest : Env) (v : Value)
    (hval : evalE fuel e env = some (sc0 :: rest, .ok v))
    (hundef : envGetOptional (sc0 :: rest) (varName lexeme) = Option.none) :
    evalE (fuel + 2) (.Assignment (.Variable lexeme) .EQUAL e) env
      = some (sc0.set (normalizeName (varName lexeme)) v :: rest, .ok v) := by
  have hfix := firstBindingIdx_eq_none_of_envGetOptional_none (varName lexeme) _ hundef
  have hw := defineWalk_of_firstBindingIdx_none (varName lexeme)
    (normalizeName (varName lexeme)) v false _ hfix
  have hdef : envDefine (sc0 :: rest) (varName lexeme) v false
      = .ok (sc0.set (normalizeName (varName lexeme)) v :: rest) := by
    simp [envDefine, hw]
  simp [evalE, evalAssignment, hval, assignTarget, hundef, hdef]

/-- C4 witness for the amended theorem. -/
theorem assign_undefined_defines_in_current_scope_witness :
    evalE 3 (.Assignment (.Variable "$y") .EQUAL (.Literal (.int 7))) [Scope.empty]
      = some ([{ values := [("y", Value.int 7)], consts := [] }], .ok (.int 7)) := by
  exact assign_undefined_defines_in_current_scope 1 "$y" (.Literal (.int 7))
    [Scope.empty] Scope.empty [] (.int 7) rfl rfl

/-- C5 (counterexample): a `NameError` (undefined variable read) raised in a
try block is NOT caught by the catch clause — `NameError` is not a subclass
of the `RuntimeError` class the except-clause filters on — so the error
propagates out of the try/catch and the catch body (which would yield 7)
never runs. -/
theorem name_error_escapes_try_catch_counterexample :
    execS 8 (.TryCatchStatement [.ExpressionStatement (.Variable "$undef")]
        [CatchClause.mk (some "$e") [.ExpressionStatement (.Literal (.int 7))]]
        Option.none) [Scope.empty]
      = some ([Scope.empty],
          .error (.ppl { kind := .nameErr,
                         message := "Undefined variable " ++ sq ++ "undef" ++ sq })) ∧
    ErrKind.nameErr.isRuntimeSubclass = false :=
  ⟨rfl, rfl⟩

/-- C5 (amended): when the try block raises a PowerLang error whose class is
`RuntimeError` or one of its subclasses (`DivisionByZeroError`,
`IndexError`, `KeyError`, `ImportError`, `TimeoutError`), the FIRST catch
clause handles it — with no type filtering among those kinds — binding the
declared catch variable to the error string `str(e)` in a fresh scope and
returning the catch block result.  (`NameError` is not of that class and is
not caught.) -/
theorem runtime_error_caught_by_first_catch
    (k : Nat) (tryStmts body : List Stmt) (lexeme : String)
    (cs : List CatchClause) (env env1 env3 env4 : Env) (e : PplError)
    (r : Except RunErr Value)
    (htry : execBlock (k + 1) tryStmts env = some (env1, .error (.ppl e)))
    (hkind : e.kind.isRuntimeSubclass = true)
    (hbind : envDefine (Scope.empty :: env1)
        (if strStartsWith lexeme "$" then strLower (strDrop lexeme 1) else lexeme)
        (.str (errStr e)) false = .ok env3)
    (hcatch : execBlock k body env3 = some (env4, r)) :
    execS (k + 3) (.TryCatchStatement tryStmts
        (CatchClause.mk (some lexeme) body :: cs) Option.none) env
      = some (env4.tail, r) := by
  simp [execS, execTryCatch, htry, hkind, execCatch,
    CatchClause.exceptionVariable, CatchClause.block, hbind, hcatch]

/-- C5 witness: a thrown error (kind RuntimeError) is caught by the first
catch; the catch variable `$e` is bound to the error string, which the
catch body reads back. -/
theorem runtime_error_caught_by_first_catch_witness :
    execS 8 (.TryCatchStatement [.ThrowStatement (.Literal (.str "boom"))]
        [CatchClause.mk (some "$e") [.ExpressionStatement (.Variable "$e")]]
        Option.none) [Scope.empty]
      = some ([Scope.empty], .ok (.str "RuntimeError: boom at <input>:1:1")) := by
  exact runtime_error_caught_by_first_catch 5
    [.ThrowStatement (.Literal (.str "boom"))]
    [.ExpressionStatement (.Variable "$e")] "$e" [] [Scope.empty] [Scope.empty]
    [{ values := [("e", Value.str "RuntimeError: boom at <input>:1:1")],
       consts := [] }, Scope.empty]
    [{ values := [("e", Value.str "RuntimeError: boom at <input>:1:1")],
       consts := [] }, Scope.empty]
    { kind := .runtimeErr, message := "boom" }
    (.ok (.str "RuntimeError: boom at <input>:1:1")) rfl rfl rfl rfl

/-- C6: array indexing first wraps a negative index by adding the array
length once; if the wrapped index is within bounds the element at that
position is returned, and otherwise an `IndexError` ("Index out of range")
is raised. -/
theorem array_index_wraparound (elements : List Value) (i : Int) :
    ((0 ≤ (if i < 0 then i + elements.length else i) ∧
      (if i < 0 then i + elements.length else i) < (elements.length : Int)) →
        ∃ v, elements.get? (if i < 0 then i + elements.length else i).toNat
               = some v ∧
          evalIndexAccessV (.array elements) (.int i) = .ok v) ∧
    (¬(0 ≤ (if i < 0 then i + elements.length else i) ∧
       (if i < 0 then i + elements.length else i) < (elements.length : Int)) →
        evalIndexAccessV (.array elements) (.int i)
          = .error (.ppl { kind := .indexErr, message := "Index out of range" })) := by
  constructor
  · rintro ⟨h0, hlen⟩
    cases hv : elements.get? (if i < 0 then i + elements.length else i).toNat with
    | none =>
      exfalso
      have hge := List.get?_eq_none.mp hv
      omega
    | some v =>
      refine ⟨v, rfl, ?_⟩
      rw [List.get?_eq_getElem?] at hv
      simp [evalIndexAccessV, valueToPython, keyToIndex, h0, hv]
  · intro h
    by_cases h0 : (0 : Int) ≤ (if i < 0 then i + elements.length else i)
    · have hge : ¬ (if i < 0 then i + elements.length else i) < (elements.length : Int) := by
        intro hc
        exact h ⟨h0, hc⟩
      have hnone : elements.get? (if i < 0 then i + elements.length else i).toNat
          = Option.none := by
        apply List.get?_eq_none.mpr
        omega
      rw [List.get?_eq_getElem?] at hnone
      simp [evalIndexAccessV, valueToPython, keyToIndex, h0, hnone]
    · simp [evalIndexAccessV, valueToPython, keyToIndex, h0]

/-- C6 witness: on the array [10, 20, 30], index 1 yields 20, index -1
wraps to 30, and index 5 raises IndexError. -/
theorem array_index_wraparound_witness :
    evalIndexAccessV (.array [.int 10, .int 20, .int 30]) (.int 1) = .ok (.int 20) ∧
    evalIndexAccessV (.array [.int 10, .int 20, .int 30]) (.int (-1)) = .ok (.int 30) ∧
    evalIndexAccessV (.array [.int 10, .int 20, .int 30]) (.int 5)
      = .error (.ppl { kind := .indexErr, message := "Index out of range" }) := by
  refine ⟨?_, ?_, ?_⟩
  · obtain ⟨v, hv, hr⟩ := (array_index_wraparound [.int 10, .int 20, .int 30] 1).1
      (by constructor <;> decide)
    have hveq : v = .int 20 := by
      have h2 := hv
      simp [List.get?] at h2
      exact h2.symm
    rw [hveq] at hr
    exact hr
  · obtain ⟨v, hv, hr⟩ := (array_index_wraparound [.int 10, .int 20, .int 30] (-1)).1
      (by constructor <;> decide)
    have hveq : v = .int 30 := by
      have h2 := hv
      simp [List.get?] at h2
      exact h2.symm
    rw [hveq] at hr
    exact hr
  · exact (array_index_wraparound [.int 10, .int 20, .int 30] 5).2 (by decide)

/-- C7 helper: defining a name that the ancestor scopes do not bind, into a
chain whose head scope has no constants, always succeeds and lands in the
head scope (whether or not the head already binds it). -/
theorem envDefine_cons_of_fresh (sc : Scope) (closure : Env) (name : String)
    (v : Value) (hconsts : sc.consts = [])
    (hfresh : envGetOptional closure name = Option.none) :
    envDefine (sc :: closure) name v false
      = .ok (sc.set (normalizeName name) v :: closure) := by
  have hfix := firstBindingIdx_eq_none_of_envGetOptional_none name closure hfresh
  have hw := defineWalk_of_firstBindingIdx_none name (normalizeName name) v false
    closure hfix
  by_cases hs : (Scope.lookup sc (normalizeName name)).isSome = true
  · have hmem : normalizeName name ∉ sc.consts := by simp [hconsts]
    simp [envDefine, defineWalk, hs, hmem, hw]
  · simp [envDefine, defineWalk, hs, hw]

/-- C7 helper: the function-call binding loop never errors when the closure
does not bind any parameter name and the call scope has no constants. -/
theorem bindFnGo_ok (args : List Value) (hasThis : Bool) :
    ∀ (params : List ParameterInfo) (argIdx : Nat) (sc : Scope) (closure : Env),
    sc.consts = [] →
    (∀ p ∈ params, envGetOptional closure p.name = Option.none) →
    ∃ sc' : Scope, sc'.consts = [] ∧
      bindFnCallParams.go args hasThis params argIdx (sc :: closure)
        = .ok (sc' :: closure) := by
  intro params
  induction params with
  | nil => intro argIdx sc closure hc _; exact ⟨sc, hc, rfl⟩
  | cons p rest ih =>
    intro argIdx sc closure hc hfresh
    have hfr := hfresh p (List.mem_cons_self p rest)
    have hfresh2 : ∀ q ∈ rest, envGetOptional closure q.name = Option.none :=
      fun q hq => hfresh q (List.mem_cons_of_mem p hq)
    by_cases hskip : ((p.name == "this" || p.name == "self") && hasThis) = true
    · obtain ⟨sc', h1, h2⟩ := ih argIdx sc closure hc hfresh2
      exact ⟨sc', h1, by simp [bindFnCallParams.go, hskip, h2]⟩
    · by_cases hidx : argIdx < args.length
      · have hdef := envDefine_cons_of_fresh sc closure p.name
          (args.getD argIdx .null) hc hfr
        obtain ⟨sc', h1, h2⟩ := ih (argIdx + 1)
          (sc.set (normalizeName p.name) (args.getD argIdx .null)) closure
          (by simp [Scope.set, hc]) hfresh2
        rw [List.getD_eq_getElem args Value.null hidx] at hdef h2
        exact ⟨sc', h1, by simp [bindFnCallParams.go, hskip, hidx, hdef, h2]⟩
      · have hdef := envDefine_cons_of_fresh sc closure p.name .null hc hfr
        obtain ⟨sc', h1, h2⟩ := ih argIdx
          (sc.set (normalizeName p.name) .null) closure
          (by simp [Scope.set, hc]) hfresh2
        exact ⟨sc', h1, by simp [bindFnCallParams.go, hskip, hidx, hdef, h2]⟩

/-- C7 helper: the `new`-expression binding loop coincides with the
function-call loop at `hasThis = true` (both always skip this/self and
otherwise treat arguments and missing parameters identically). -/
theorem bindNewGo_eq (args : List Value) :
    ∀ (params : List ParameterInfo) (argIdx : Nat) (env : Env),
    bindNewParams.go args params argIdx env
      = bindFnCallParams.go args true params argIdx env := by
  intro params
  induction params with
  | nil => intro argIdx env; rfl
  | cons p rest ih =>
    intro argIdx env
    by_cases hskip : (p.name == "this" || p.name == "self") = true
    · simp [bindNewParams.go, bindFnCallParams.go, hskip, ih]
    · by_cases hidx : argIdx < args.length
      · simp only [bindNewParams.go, bindFnCallParams.go, hskip, hidx]
        simp [ih]
      · simp only [bindNewParams.go, bindFnCallParams.go, hskip, hidx]
        simp [ih]

/-- C7 helper: when the arguments are exhausted, the class-call constructor
loop performs no define at all: the environment is returned unchanged and
the parameters stay unbound. -/
theorem bindClassGo_noop (args : List Value) :
    ∀ (params : List ParameterInfo) (i : Nat) (env : Env),
    args.length ≤ i →
    bindClassCallParams.go args params i env = .ok env := by
  intro params
  induction params with
  | nil => intro i env _; rfl
  | cons p rest ih =>
    intro i env hle
    by_cases hskip : (p.name == "this" || p.name == "self") = true
    · simp [bindClassCallParams.go, hskip, ih (i + 1) env (by omega)]
    · have hidx : ¬ i < args.length := by omega
      simp [bindClassCallParams.go, hskip, hidx, ih (i + 1) env (by omega)]

/-- C7 (counterexample): a constructor invoked by calling the class value
(`bindClassCallParams`, lines 571-575) with fewer arguments than
parameters does NOT bind the missing parameter to Null — it binds nothing,
leaving the parameter undefined in the call environment — while the
function-call loop (lines 539-547) binds it to Null. -/
theorem class_call_missing_param_left_unbound_counterexample :
    bindClassCallParams [{ name := "a" }] [] [Scope.empty] = .ok [Scope.empty] ∧
    envGetOptional [Scope.empty] "a" = Option.none ∧
    bindFnCallParams [{ name := "a" }] [] false [Scope.empty]
      = .ok [{ values := [("a", Value.null)], consts := [] }] :=
  ⟨rfl, rfl, rfl⟩

/-- C7 helper: `argSlot` at 0 is 0. -/
theorem argSlot_zero (hasThis : Bool) (params : List ParameterInfo) :
    argSlot hasThis params 0 = 0 := by
  simp [argSlot]

/-- C7 helper: `argSlot` over a cons, one position further: a skipped head
contributes nothing, a bound head contributes one argument slot. -/
theorem argSlot_cons_succ (hasThis : Bool) (p : ParameterInfo)
    (rest : List ParameterInfo) (j : Nat) :
    argSlot hasThis (p :: rest) (j + 1)
      = (if ((p.name == "this" || p.name == "self") && hasThis) = true
         then argSlot hasThis rest j else argSlot hasThis rest j + 1) := by
  cases hT : p.name == "this" <;> cases hS : p.name == "self" <;>
    cases hasThis <;>
    simp [argSlot, List.take_succ_cons, List.filter_cons, hT, hS]

/-- C7 helper: the full positional behavior of the function-call binding
loop started at `argIdx`, for pairwise-distinct (normalized) parameter
names none of which is bound in the call scope or its ancestors yet: the
loop succeeds, keys outside the parameter list are untouched, and the j-th
parameter (unless skipped as a `this`/`self` receiver) ends bound to
argument number `argIdx + argSlot j` when that is in range and to NULL
otherwise. -/
theorem bindFnGo_positional (args : List Value) (hasThis : Bool) :
    ∀ (params : List ParameterInfo) (argIdx : Nat) (sc : Scope) (closure : Env),
    sc.consts = [] →
    (∀ p ∈ params, envGetOptional closure p.name = Option.none) →
    (∀ p ∈ params, Scope.lookup sc (normalizeName p.name) = Option.none) →
    (params.map (fun p => normalizeName p.name)).Nodup →
    ∃ sc' : Scope, sc'.consts = [] ∧
      bindFnCallParams.go args hasThis params argIdx (sc :: closure)
        = .ok (sc' :: closure) ∧
      (∀ key, (∀ p ∈ params, normalizeName p.name ≠ key) →
         Scope.lookup sc' key = Scope.lookup sc key) ∧
      (∀ j (hj : j < params.length),
         (((params.get ⟨j, hj⟩).name == "this" ||
           (params.get ⟨j, hj⟩).name == "self") && hasThis) = false →
         Scope.lookup sc' (normalizeName (params.get ⟨j, hj⟩).name)
           = some (if argIdx + argSlot hasThis params j < args.length
                   then args.getD (argIdx + argSlot hasThis params j) .null
                   else .null)) := by
  intro params
  induction params with
  | nil =>
    intro argIdx sc closure hc _ _ _
    exact ⟨sc, hc, rfl, fun _ _ => rfl, fun j hj => absurd hj (by simp)⟩
  | cons p rest ih =>
    intro argIdx sc closure hc hfresh hhead hnodup
    have hfr := hfresh p (List.mem_cons_self p rest)
    have hfresh2 : ∀ q ∈ rest, envGetOptional closure q.name = Option.none :=
      fun q hq => hfresh q (List.mem_cons_of_mem p hq)
    rw [List.map_cons, List.nodup_cons] at hnodup
    obtain ⟨hkey0, hnodup2⟩ := hnodup
    have hne0 : ∀ q ∈ rest, normalizeName q.name ≠ normalizeName p.name := by
      intro q hq hcontra
      exact hkey0 (hcontra ▸ List.mem_map_of_mem (fun r => normalizeName r.name) hq)
    by_cases hskip : ((p.name == "this" || p.name == "self") && hasThis) = true
    · -- the head parameter is skipped; nothing is bound for it
      obtain ⟨sc', h1, h2, hpres, hbind⟩ :=
        ih argIdx sc closure hc hfresh2
          (fun q hq => hhead q (List.mem_cons_of_mem p hq)) hnodup2
      refine ⟨sc', h1, by simp [bindFnCallParams.go, hskip, h2], ?_, ?_⟩
      · intro key hkey
        exact hpres key (fun q hq => hkey q (List.mem_cons_of_mem p hq))
      · intro j hj hnons
        match j, hj with
        | 0, hj =>
          rw [List.get] at hnons
          rw [hskip] at hnons
          exact absurd hnons (by simp)
        | j + 1, hj =>
          have hj2 : j < rest.length := by
            simp only [List.length_cons] at hj
            omega
          rw [List.get] at hnons ⊢
          rw [argSlot_cons_succ, if_pos hskip]
          exact hbind j hj2 hnons
    · -- the head parameter is bound (to an argument or to NULL)
      by_cases hidx : argIdx < args.length
      · have hdef := envDefine_cons_of_fresh sc closure p.name
          (args.getD argIdx .null) hc hfr
        obtain ⟨sc', h1, h2, hpres, hbind⟩ :=
          ih (argIdx + 1) (sc.set (normalizeName p.name) (args.getD argIdx .null))
            closure (by simp [Scope.set, hc]) hfresh2
            (by
              intro q hq
              show List.lookup (normalizeName q.name)
                (setAssoc (normalizeName p.name) (args.getD argIdx .null) sc.values)
                = Option.none
              rw [lookup_setAssoc_ne _ _ _ _ (hne0 q hq)]
              exact hhead q (List.mem_cons_of_mem p hq))
            hnodup2
        have heq : bindFnCallParams.go args hasThis (p :: rest) argIdx (sc :: closure)
            = .ok (sc' :: closure) := by
          rw [List.getD_eq_getElem args Value.null hidx] at hdef h2
          simp [bindFnCallParams.go, hskip, hidx, hdef, h2]
        refine ⟨sc', h1, heq, ?_, ?_⟩
        · intro key hkey
          rw [hpres key (fun q hq => hkey q (List.mem_cons_of_mem p hq))]
          show List.lookup key
              (setAssoc (normalizeName p.name) (args.getD argIdx Value.null) sc.values)
            = Scope.lookup sc key
          rw [lookup_setAssoc_ne _ _ _ _
            (Ne.symm (hkey p (List.mem_cons_self p rest)))]
          rfl
        · intro j hj hnons
          match j, hj with
          | 0, hj =>
            rw [List.get]
            rw [argSlot_zero]
            have hlook : Scope.lookup sc' (normalizeName p.name)
                = Scope.lookup
                    (sc.set (normalizeName p.name) (args.getD argIdx Value.null))
                    (normalizeName p.name) :=
              hpres (normalizeName p.name) hne0
            have hself : Scope.lookup
                (sc.set (normalizeName p.name) (args.getD argIdx Value.null))
                (normalizeName p.name) = some (args.getD argIdx Value.null) :=
              lookup_setAssoc_self _ _ sc.values
            rw [hlook, hself]
            simp only [Nat.add_zero]
            rw [if_pos hidx]
          | j + 1, hj =>
            have hj2 : j < rest.length := by
              simp only [List.length_cons] at hj
              omega
            rw [List.get] at hnons ⊢
            have hb := hbind j hj2 hnons
            rw [argSlot_cons_succ, if_neg hskip]
            have harith : argIdx + 1 + argSlot hasThis rest j
                = argIdx + (argSlot hasThis rest j + 1) := by omega
            rw [harith] at hb
            exact hb
      · have hdef := envDefine_cons_of_fresh sc closure p.name .null hc hfr
        obtain ⟨sc', h1, h2, hpres, hbind⟩ :=
          ih argIdx (sc.set (normalizeName p.name) .null)
            closure (by simp [Scope.set, hc]) hfresh2
            (by
              intro q hq
              show List.lookup (normalizeName q.name)
                (setAssoc (normalizeName p.name) Value.null sc.values)
                = Option.none
              rw [lookup_setAssoc_ne _ _ _ _ (hne0 q hq)]
              exact hhead q (List.mem_cons_of_mem p hq))
            hnodup2
        refine ⟨sc', h1, by simp [bindFnCallParams.go, hskip, hidx, hdef, h2], ?_, ?_⟩
        · intro key hkey
          rw [hpres key (fun q hq => hkey q (List.mem_cons_of_mem p hq))]
          show List.lookup key
              (setAssoc (normalizeName p.name) Value.null sc.values)
            = Scope.lookup sc key
          rw [lookup_setAssoc_ne _ _ _ _
            (Ne.symm (hkey p (List.mem_cons_self p rest)))]
          rfl
        · intro j hj hnons
          match j, hj with
          | 0, hj =>
            rw [List.get]
            rw [argSlot_zero]
            have hlook : Scope.lookup sc' (normalizeName p.name)
                = Scope.lookup (sc.set (normalizeName p.name) Value.null)
                    (normalizeName p.name) :=
              hpres (normalizeName p.name) hne0
            have hself : Scope.lookup (sc.set (normalizeName p.name) Value.null)
                (normalizeName p.name) = some Value.null :=
              lookup_setAssoc_self _ _ sc.values
            rw [hlook, hself]
            simp only [Nat.add_zero]
            rw [if_neg hidx]
          | j + 1, hj =>
            have hj2 : j < rest.length := by
              simp only [List.length_cons] at hj
              omega
            rw [List.get] at hnons ⊢
            have hb := hbind j hj2 hnons
            rw [argSlot_cons_succ, if_neg hskip]
            have hc1 : ¬ argIdx + argSlot hasThis rest j < args.length := by omega
            have hc2 : ¬ argIdx + (argSlot hasThis rest j + 1) < args.length := by
              omega
            rw [if_neg hc1] at hb
            rw [if_neg hc2]
            exact hb

/-- C7 helper: the full positional behavior of the class-call constructor
loop started at enumerate index `i`, for pairwise-distinct fresh parameter
names: the loop succeeds, and the j-th parameter (unless named
`this`/`self`) ends bound to argument number `i + j` when that is in range
and is left unbound (no NULL default) otherwise. -/
theorem bindClassGo_positional (args : List Value) :
    ∀ (params : List ParameterInfo) (i : Nat) (sc : Scope) (closure : Env),
    sc.consts = [] →
    (∀ p ∈ params, envGetOptional closure p.name = Option.none) →
    (∀ p ∈ params, Scope.lookup sc (normalizeName p.name) = Option.none) →
    (params.map (fun p => normalizeName p.name)).Nodup →
    ∃ sc' : Scope, sc'.consts = [] ∧
      bindClassCallParams.go args params i (sc :: closure) = .ok (sc' :: closure) ∧
      (∀ key, (∀ p ∈ params, normalizeName p.name ≠ key) →
         Scope.lookup sc' key = Scope.lookup sc key) ∧
      (∀ j (hj : j < params.length),
         ((params.get ⟨j, hj⟩).name == "this" ||
          (params.get ⟨j, hj⟩).name == "self") = false →
         Scope.lookup sc' (normalizeName (params.get ⟨j, hj⟩).name)
           = if i + j < args.length then some (args.getD (i + j) .null)
             else Option.none) := by
  intro params
  induction params with
  | nil =>
    intro i sc closure hc _ _ _
    exact ⟨sc, hc, rfl, fun _ _ => rfl, fun j hj => absurd hj (by simp)⟩
  | cons p rest ih =>
    intro i sc closure hc hfresh hhead hnodup
    have hfr := hfresh p (List.mem_cons_self p rest)
    have hfresh2 : ∀ q ∈ rest, envGetOptional closure q.name = Option.none :=
      fun q hq => hfresh q (List.mem_cons_of_mem p hq)
    rw [List.map_cons, List.nodup_cons] at hnodup
    obtain ⟨hkey0, hnodup2⟩ := hnodup
    have hne0 : ∀ q ∈ rest, normalizeName q.name ≠ normalizeName p.name := by
      intro q hq hcontra
      exact hkey0 (hcontra ▸ List.mem_map_of_mem (fun r => normalizeName r.name) hq)
    by_cases hskip : (p.name == "this" || p.name == "self") = true
    · obtain ⟨sc', h1, h2, hpres, hbind⟩ :=
        ih (i + 1) sc closure hc hfresh2
          (fun q hq => hhead q (List.mem_cons_of_mem p hq)) hnodup2
      refine ⟨sc', h1, by simp [bindClassCallParams.go, hskip, h2], ?_, ?_⟩
      · intro key hkey
        exact hpres key (fun q hq => hkey q (List.mem_cons_of_mem p hq))
      · intro j hj hnons
        match j, hj with
        | 0, hj =>
          rw [List.get] at hnons
          rw [hskip] at hnons
          exact absurd hnons (by simp)
        | j + 1, hj =>
          have hj2 : j < rest.length := by
            simp only [List.length_cons] at hj
            omega
          rw [List.get] at hnons ⊢
          have hb := hbind j hj2 hnons
          have harith : i + 1 + j = i + (j + 1) := by omega
          rw [harith] at hb
          exact hb
    · by_cases hidx : i < args.length
      · have hdef := envDefine_cons_of_fresh sc closure p.name
          (args.getD i .null) hc hfr
        obtain ⟨sc', h1, h2, hpres, hbind⟩ :=
          ih (i + 1) (sc.set (normalizeName p.name) (args.getD i .null))
            closure (by simp [Scope.set, hc]) hfresh2
            (by
              intro q hq
              show List.lookup (normalizeName q.name)
                (setAssoc (normalizeName p.name) (args.getD i .null) sc.values)
                = Option.none
              rw [lookup_setAssoc_ne _ _ _ _ (hne0 q hq)]
              exact hhead q (List.mem_cons_of_mem p hq))
            hnodup2
        have heq : bindClassCallParams.go args (p :: rest) i (sc :: closure)
            = .ok (sc' :: closure) := by
          rw [List.getD_eq_getElem args Value.null hidx] at hdef h2
          simp [bindClassCallParams.go, hskip, hidx, hdef, h2]
        refine ⟨sc', h1, heq, ?_, ?_⟩
        · intro key hkey
          rw [hpres key (fun q hq => hkey q (List.mem_cons_of_mem p hq))]
          show List.lookup key
              (setAssoc (normalizeName p.name) (args.getD i Value.null) sc.values)
            = Scope.lookup sc key
          rw [lookup_setAssoc_ne _ _ _ _
            (Ne.symm (hkey p (List.mem_cons_self p rest)))]
          rfl
        · intro j hj hnons
          match j, hj with
          | 0, hj =>
            rw [List.get]
            have hlook : Scope.lookup sc' (normalizeName p.name)
                = Scope.lookup
                    (sc.set (normalizeName p.name) (args.getD i Value.null))
                    (normalizeName p.name) :=
              hpres (normalizeName p.name) hne0
            have hself : Scope.lookup
                (sc.set (normalizeName p.name) (args.getD i Value.null))
                (normalizeName p.name) = some (args.getD i Value.null) :=
              lookup_setAssoc_self _ _ sc.values
            rw [hlook, hself]
            simp only [Nat.add_zero]
            rw [if_pos hidx]
          | j + 1, hj =>
            have hj2 : j < rest.length := by
              simp only [List.length_cons] at hj
              omega
            rw [List.get] at hnons ⊢
            have hb := hbind j hj2 hnons
            have harith : i + 1 + j = i + (j + 1) := by omega
            rw [harith] at hb
            exact hb
      · obtain ⟨sc', h1, h2, hpres, hbind⟩ :=
          ih (i + 1) sc closure hc hfresh2
            (fun q hq => hhead q (List.mem_cons_of_mem p hq)) hnodup2
        refine ⟨sc', h1, by simp [bindClassCallParams.go, hskip, hidx, h2], ?_, ?_⟩
        · intro key hkey
          exact hpres key (fun q hq => hkey q (List.mem_cons_of_mem p hq))
        · intro j hj hnons
          match j, hj with
          | 0, hj =>
            rw [List.get]
            rw [if_neg (by omega : ¬ i + 0 < args.length)]
            rw [hpres (normalizeName p.name) hne0]
            exact hhead p (List.mem_cons_self p rest)
          | j + 1, hj =>
            have hj2 : j < rest.length := by
              simp only [List.length_cons] at hj
              omega
            rw [List.get] at hnons ⊢
            have hb := hbind j hj2 hnons
            have harith : i + 1 + j = i + (j + 1) := by omega
            rw [harith] at hb
            exact hb

/-- C7 (amended): parameter binding at the three call sites, for a fresh
call environment (`closure.child()`) whose ancestors bind none of the
(pairwise distinct) parameter names: (A) the function-call loop never
errors, whatever the argument count (no arity checking); (B) the
function-call loop binds positionally — the j-th parameter, skipping
`this`/`self` receivers, gets argument `argSlot j` while arguments remain
and is bound to Null once they are exhausted (every missing trailing
parameter maps to Null in the call scope); (C) the `new`-expression loop
coincides with the function-call loop at `hasThis = true`, so it behaves
the same; (D) the class-call constructor loop binds argument `j` to the
parameter at enumerate index `j` while arguments remain but leaves every
later parameter UNBOUND — missing parameters are not bound to Null there —
and (E) with no arguments at all it performs no define whatsoever. -/
theorem missing_trailing_params_bind_null_except_class_call
    (params : List ParameterInfo) (args : List Value) (hasThis : Bool)
    (closure : Env)
    (hfresh : ∀ p ∈ params, envGetOptional closure p.name = Option.none)
    (hnodup : (params.map (fun p => normalizeName p.name)).Nodup) :
    (∃ env2, bindFnCallParams params args hasThis (Scope.empty :: closure)
        = .ok env2) ∧
    (∃ sc : Scope,
        bindFnCallParams params args hasThis (Scope.empty :: closure)
          = .ok (sc :: closure) ∧
        ∀ j (hj : j < params.length),
          (((params.get ⟨j, hj⟩).name == "this" ||
            (params.get ⟨j, hj⟩).name == "self") && hasThis) = false →
          Scope.lookup sc (normalizeName (params.get ⟨j, hj⟩).name)
            = some (if argSlot hasThis params j < args.length
                    then args.getD (argSlot hasThis params j) .null
                    else .null)) ∧
    (∀ env0 : Env, bindNewParams params args env0
        = bindFnCallParams params args true env0) ∧
    (∃ sc : Scope,
        bindClassCallParams params args (Scope.empty :: closure)
          = .ok (sc :: closure) ∧
        ∀ j (hj : j < params.length),
          ((params.get ⟨j, hj⟩).name == "this" ||
           (params.get ⟨j, hj⟩).name == "self") = false →
          Scope.lookup sc (normalizeName (params.get ⟨j, hj⟩).name)
            = if j < args.length then some (args.getD j .null)
              else Option.none) ∧
    (∀ env0 : Env, bindClassCallParams params [] env0 = .ok env0) := by
  refine ⟨?_, ?_, ?_, ?_, ?_⟩
  · obtain ⟨sc', _, h2⟩ := bindFnGo_ok args hasThis params 0 Scope.empty closure
      rfl hfresh
    exact ⟨sc' :: closure, h2⟩
  · obtain ⟨sc', _, h2, _, hbind⟩ := bindFnGo_positional args hasThis params 0
      Scope.empty closure rfl hfresh (fun _ _ => rfl) hnodup
    refine ⟨sc', h2, ?_⟩
    intro j hj hnons
    have hb := hbind j hj hnons
    rw [Nat.zero_add] at hb
    exact hb
  · intro env0
    exact bindNewGo_eq args params 0 env0
  · obtain ⟨sc', _, h2, _, hbind⟩ := bindClassGo_positional args params 0
      Scope.empty closure rfl hfresh (fun _ _ => rfl) hnodup
    refine ⟨sc', h2, ?_⟩
    intro j hj hnons
    have hb := hbind j hj hnons
    rw [Nat.zero_add] at hb
    exact hb
  · intro env0
    exact bindClassGo_noop [] params 0 env0 (by simp)

/-- C7 witness for the amended theorem at a partial argument list: two
parameters, one argument.  The function-call loop binds a positionally to
the one argument and the missing trailing b to Null; the class-call loop
binds a but leaves b unbound. -/
theorem missing_trailing_params_bind_null_witness :
    (∃ env2, bindFnCallParams [{ name := "a" }, { name := "b" }] [Value.int 1]
        false (Scope.empty :: []) = .ok env2) ∧
    (∃ sc : Scope,
        bindFnCallParams [{ name := "a" }, { name := "b" }] [Value.int 1]
            false (Scope.empty :: []) = .ok (sc :: []) ∧
        Scope.lookup sc "a" = some (Value.int 1) ∧
        Scope.lookup sc "b" = some Value.null) ∧
    (∃ sc : Scope,
        bindClassCallParams [{ name := "a" }, { name := "b" }] [Value.int 1]
            (Scope.empty :: []) = .ok (sc :: []) ∧
        Scope.lookup sc "a" = some (Value.int 1) ∧
        Scope.lookup sc "b" = Option.none) := by
  have h := missing_trailing_params_bind_null_except_class_call
    [{ name := "a" }, { name := "b" }] [Value.int 1] false []
    (by intro p _; rfl) (by decide)
  obtain ⟨hA, ⟨sc1, hok1, hbind1⟩, _, ⟨sc2, hok2, hbind2⟩, _⟩ := h
  refine ⟨hA, ⟨sc1, hok1, ?_, ?_⟩, ⟨sc2, hok2, ?_, ?_⟩⟩
  · exact hbind1 0 (by decide) (by decide)
  · exact hbind1 1 (by decide) (by decide)
  · exact hbind2 0 (by decide) (by decide)
  · exact hbind2 1 (by decide) (by decide)

/-- C8 (counterexample): the scanner-based lexer, on `-xyz` (a `-` followed
by letters forming no known operator), silently emits a MINUS token
followed by an identifier token and records NO error. -/
theorem unknown_dash_word_lexes_as_minus_identifier_counterexample :
    tokenSummary (tokenize "-xyz")
      = some ([(TokType.MINUS, "-"), (TokType.IDENTIFIER, "xyz"),
               (TokType.EOF, "")], [], false) := rfl

/-- C8 (amended): the scanner-based lexer matches `-` plus letters by
fixed-length longest match against the operator table: a known `-word`
(`-and`, `-eq`) lexes as a single operator token, but an unknown `-word`
falls back to a MINUS token followed by an identifier token with no error.
Only the legacy lexer (`read_ps_operator` in src/lexer.py) implements the
greedy read-then-look-up rule: it raises `SyntaxError` on an unknown word
and produces the operator token on a known one. -/
theorem dash_word_operator_lexing :
    tokenSummary (tokenize "-and")
      = some ([(TokType.AND, "-and"), (TokType.EOF, "")], [], false) ∧
    tokenSummary (tokenize "-eq")
      = some ([(TokType.EQ, "-eq"), (TokType.EOF, "")], [], false) ∧
    readPsOperator { source := "-xyz".data, position := 0, line := 1, column := 1 }
      = .error ("Unknown operator " ++ sq ++ "-xyz" ++ sq ++ " at 1:1") ∧
    (readPsOperator { source := "-eq 1".data, position := 0, line := 1, column := 1 }
      ).toOption.map (fun r => (r.1.type, r.1.value)) = some (.EQ, "-eq") :=
  ⟨rfl, rfl, rfl, rfl⟩

/-- C9: tokenizing a source that opens a block comment `<#` and reaches end
of input with no `#>` records NO error at all: the error list stays empty
and `had_error` stays false (the `<#` pair is emitted as an operator token
and the comment body is tokenized as ordinary source, because the
block-comment branch of `_scan_token` is unreachable and
`_scan_block_comment_start` itself records nothing at end of input). -/
theorem unterminated_block_comment_records_no_error :
    tokenSummary (tokenize "<#ab")
      = some ([(TokType.BLOCK_COMMENT_START, "<#"), (TokType.IDENTIFIER, "ab"),
               (TokType.EOF, "")], [], false) := rfl

/-- If `Environment.get` succeeds, `get_optional` returns the same value. -/
theorem envGetOptional_of_envGet :
    ∀ (env : Env) (name : String) (v : Value),
    envGet env name = .ok v → envGetOptional env name = some v := by
  intro env
  induction env with
  | nil => intro name v h; simp [envGet] at h
  | cons sc rest ih =>
    intro name v h
    cases hx : Scope.lookup sc (normalizeName name) with
    | some w =>
      rw [envGet, hx] at h
      cases h
      simp [envGetOptional, hx]
    | none =>
      rw [envGet, hx] at h
      simp [envGetOptional, hx]
      exact ih name v h

/-- C10: a compound division assignment whose right-hand side evaluates to
zero does not raise: the Python conditional `... if rp else NULL` takes the
NULL branch, the target is assigned NULL, and the whole expression
evaluates to NULL — while the plain `/` operator on the same operands
raises "Division by zero". -/
theorem slash_equal_zero_divisor_stores_null
    (k : Nat) (lexeme : String) (e : Expr) (env env1 env2 : Env) (tv : Value)
    (hrhs : evalE (k + 1) e env = some (env1, .ok (Value.int 0)))
    (htv : envGet env1 (varName lexeme) = .ok tv)
    (hassign : envAssign env1 (varName lexeme) Value.null = .ok env2) :
    evalE (k + 3) (.Assignment (.Variable lexeme) .SLASH_EQUAL e) env
      = some (env2, .ok .null) ∧
    evalBinaryOp .SLASH tv (.int 0)
      = .error (.ppl { kind := .runtimeErr, message := "Division by zero" }) := by
  constructor
  · have hopt := envGetOptional_of_envGet env1 (varName lexeme) tv htv
    have hsome : (envGetOptional env1 (varName lexeme)).isNone = false := by
      simp [hopt]
    have step1 : evalE (k + 3) (.Assignment (.Variable lexeme) .SLASH_EQUAL e) env
        = evalAssignment (k + 2) (.Variable lexeme) .SLASH_EQUAL e env := rfl
    rw [step1]
    simp only [evalAssignment]
    rw [hrhs]
    simp [evalE, htv, assignTarget, hsome, hassign, valueToPython, pyTruthy]
  · rfl

/-- C10 witness: with x bound to 6, `$x /= 0` stores Null and evaluates to
Null; `6 / 0` with the plain operator raises. -/
theorem slash_equal_zero_divisor_stores_null_witness :
    evalE 4 (.Assignment (.Variable "$x") .SLASH_EQUAL (.Literal (.int 0)))
        [{ values := [("x", Value.int 6)], consts := [] }]
      = some ([{ values := [("x", Value.null)], consts := [] }], .ok .null) ∧
    evalBinaryOp .SLASH (.int 6) (.int 0)
      = .error (.ppl { kind := .runtimeErr, message := "Division by zero" }) := by
  have h := slash_equal_zero_divisor_stores_null 1 "$x" (.Literal (.int 0))
    [{ values := [("x", Value.int 6)], consts := [] }]
    [{ values := [("x", Value.int 6)], consts := [] }]
    [{ values := [("x", Value.null)], consts := [] }]
    (.int 6) rfl rfl rfl
  exact h

end PowerLang
